import Mathlib

/-!
# Arcan playback backend (`Alc/backends/arcan.c`)

A shallow embedding of the Arcan shared-memory playback backend of OpenAL Soft
and a verification of its contract.

Data model assumed for machine integers (LP64): `ALuint` is 32 bits unsigned,
`ALuint64` and `size_t` are 64 bits unsigned, `time_t`, `long` and `ALint64`
are 64 bits signed.  Unsigned arithmetic is reduced modulo `2^64` explicitly;
signed arithmetic is wrapped to the two's complement range.
-/

namespace Arcan

/-! ## Machine integers -/

/-- Sum of two `ALuint64`/`size_t` values. -/
def add64 (a b : Nat) : Nat := (a + b) % 2 ^ 64

/-- Difference of two `ALuint64` values (wraps below zero). -/
def sub64 (a b : Nat) : Nat := (a + (2 ^ 64 - b % 2 ^ 64)) % 2 ^ 64

/-- Product of two `size_t` values. -/
def mul64 (a b : Nat) : Nat := (a * b) % 2 ^ 64

/-- Conversion of a signed value to `ALuint64`. -/
def toU64 (x : Int) : Nat := (x % 2 ^ 64).toNat

/-- Two's complement wrap of a mathematical integer to a signed 64-bit value. -/
def wrapI64 (x : Int) : Int := (x + 2 ^ 63) % 2 ^ 64 - 2 ^ 63

/-! ## Backend object and device descriptor -/

/-- The fields of `struct ALCarcanBackend` next to the base object: the
cancellation flag `killNow` (a `volatile int`) and the task handle `thread`.
`running` is the thread system's side of the handle: whether a task created
through `althrd_create` exists that has not been joined yet. -/
structure ALCarcanBackend where
  killNow : Int
  thread : Nat
  running : Bool
  deriving DecidableEq, Repr

/-- Calls a backend operation makes on the thread library. -/
inductive ThreadCall where
  | create (handle : Nat)
  | join (handle : Nat)
  deriving DecidableEq, Repr

/-- The constructor `ALCarcanBackend_Construct`: constructs the base object and installs the
vtable; the backend's own fields keep what the allocation held. -/
def ALCarcanBackend_Construct (raw : ALCarcanBackend) : ALCarcanBackend := raw

/-- The object memory `NEW_OBJ` hands to the constructor (zero filled). -/
def zeroedBackend : ALCarcanBackend := { killNow := 0, thread := 0, running := false }

/-- The operation `ALCarcanBackend_start`: clears `killNow`, then `althrd_create`; `created`
is the handle of the new task when the creation succeeds.  Returns the
`ALCboolean` result. -/
def ALCarcanBackend_start (created : Option Nat) (self : ALCarcanBackend) :
    ALCarcanBackend × Bool :=
  let self1 := { self with killNow := 0 }
  match created with
  | none => (self1, false)
  | some h => ({ self1 with thread := h, running := true }, true)

/-- The operation `ALCarcanBackend_stop`: returns at once when `killNow` is set; otherwise
sets it and joins `self->thread`.  The result of `althrd_join` is stored in a
local and dropped.  The returned list holds the thread calls made. -/
def ALCarcanBackend_stop (self : ALCarcanBackend) : ALCarcanBackend × List ThreadCall :=
  if self.killNow ≠ 0 then (self, [])
  else ({ self with killNow := 1, running := false }, [ThreadCall.join self.thread])

/-- Number of joins among the thread calls. -/
def joinCount (cs : List ThreadCall) : Nat :=
  (cs.filter fun c => match c with
    | ThreadCall.join _ => true
    | _ => false).length

/-! ## Device names -/

/-- The error code `ALC_NO_ERROR`. -/
def ALC_NO_ERROR : Nat := 0

/-- The error code `ALC_INVALID_VALUE`. -/
def ALC_INVALID_VALUE : Nat := 0xA004

/-- The name `arcanDevice`. -/
def arcanDevice : List Char := "arcan".toList

/-- The C library's `strcmp` on C strings given as their characters before the terminator:
the difference of the first pair of differing characters, the terminator
counting as 0. -/
def strcmp : List Char → List Char → Int
  | [], [] => 0
  | [], b :: _ => 0 - (b.toNat : Int)
  | a :: _, [] => (a.toNat : Int)
  | a :: as, b :: bs => if a = b then strcmp as bs else (a.toNat : Int) - (b.toNat : Int)

/-! ## Device descriptor, `open`, shared surface connection and `reset` -/

/-- The channel layout `ALC_STEREO_SOFT` (`DevFmtStereo`). -/
def ALC_STEREO_SOFT : Nat := 0x1501

/-- The sample type `ALC_SHORT_SOFT` (`DevFmtShort`). -/
def ALC_SHORT_SOFT : Nat := 0x1402

/-- The fields of `ALCdevice` the backend touches.  `ChannelName` stands for
`RealOut.ChannelName`, the table `SetDefaultWFXChannelOrder` fills in. -/
structure ALCdevice where
  Frequency : Nat
  UpdateSize : Nat
  FmtChans : Nat
  FmtType : Nat
  ChannelName : List Nat
  DeviceName : List Char
  deriving DecidableEq, Repr

/-- The operation `ALCarcanBackend_open`; `name = none` is the NULL pointer.
Returns the device and the `ALCenum` result. -/
def ALCarcanBackend_open (dev : ALCdevice) (name : Option (List Char)) : ALCdevice × Nat :=
  match name with
  | none => ({ dev with DeviceName := arcanDevice }, ALC_NO_ERROR)
  | some n =>
    if strcmp n arcanDevice ≠ 0 then (dev, ALC_INVALID_VALUE)
    else ({ dev with DeviceName := n }, ALC_NO_ERROR)

/-- Kinds of events a client enqueues to the Arcan server. -/
inductive EventKind where
  | FLUSHAUD
  | other (code : Nat)
  deriving DecidableEq, Repr

/-- The fields of `struct arcan_shmif_cont` the backend touches.  `user` is
the `magic` word of the structure the `user` pointer refers to, `none` for a
NULL pointer; `outev` is the queue of events sent to the server. -/
structure ShmifCont where
  w : Nat
  h : Nat
  abufsize : Nat
  abufused : Nat
  abufpos : Nat
  user : Option Nat
  outev : List EventKind
  deriving DecidableEq, Repr

/-- The call `arcan_shmif_enqueue`: appends the event to the outgoing queue. -/
def arcan_shmif_enqueue (cont : ShmifCont) (ev : EventKind) : ShmifCont :=
  { cont with outev := cont.outev ++ [ev] }

/-- The operation `ALCarcanBackend_reset`.  `primary` is what
`arcan_shmif_primary` returns, `SAMPLERATE` is `ARCAN_SHMIF_SAMPLERATE` and
`wfxOrder` the channel table `SetDefaultWFXChannelOrder` derives from the
channel layout.  Returns the device, the connection and the `ALCboolean`
result. -/
def ALCarcanBackend_reset (SAMPLERATE : Nat) (wfxOrder : Nat → List Nat)
    (primary : Option ShmifCont) (dev : ALCdevice) :
    ALCdevice × Option ShmifCont × Bool :=
  match primary with
  | none => (dev, none, false)
  | some cont =>
    let dev1 := { dev with FmtChans := ALC_STEREO_SOFT }
    let dev2 := { dev1 with FmtType := ALC_SHORT_SOFT }
    let dev3 := { dev2 with Frequency := SAMPLERATE }
    let cont1 := { cont with abufpos := 0 }
    let cont2 := arcan_shmif_enqueue cont1 EventKind.FLUSHAUD
    let dev4 := { dev3 with ChannelName := wfxOrder dev3.FmtChans }
    (dev4, some cont2, true)

/-! ## Elapsed time in frames -/

/-- The C `struct timespec`. -/
structure timespec where
  tv_sec : Int
  tv_nsec : Int
  deriving DecidableEq, Repr

/-- Lines 140-141 of `ALCarcanBackend_mixerProc`:
`avail = (now.tv_sec - start.tv_sec) * Frequency;`
`avail += (ALint64)(now.tv_nsec - start.tv_nsec) * Frequency / 1000000000;`
Both products are signed 64-bit, the quotient is C's division (truncated
towards zero), and the assignments convert to `ALuint64`. -/
def availFrames (start now : timespec) (Frequency : Nat) : Nat :=
  let avail0 := toU64 (wrapI64 (wrapI64 (now.tv_sec - start.tv_sec) * (Frequency : Int)))
  let q := Int.tdiv (wrapI64 (wrapI64 (now.tv_nsec - start.tv_nsec) * (Frequency : Int)))
    1000000000
  toU64 ((avail0 : Int) + q)

/-- Elapsed time between two timestamps in nanoseconds. -/
def elapsedNanoseconds (start now : timespec) : Int :=
  (now.tv_sec - start.tv_sec) * 1000000000 + (now.tv_nsec - start.tv_nsec)

/-- The frame count the specification gives for `avail`: the elapsed real
time converted to frames, rounded down. -/
def specAvail (start now : timespec) (Frequency : Nat) : Int :=
  Int.fdiv (elapsedNanoseconds start now * (Frequency : Int)) 1000000000

/-- The elapsed real time converted to frames, rounded up. -/
def ceilAvail (start now : timespec) (Frequency : Nat) : Int :=
  - Int.fdiv (- (elapsedNanoseconds start now * (Frequency : Int))) 1000000000

/-- A timestamp as the clock returns it: nanoseconds within one second. -/
def timespec.valid (t : timespec) : Prop :=
  0 ≤ t.tv_nsec ∧ t.tv_nsec < 1000000000

/-- Order of timestamps: `start` is not later than `now`. -/
def timespec.le (start now : timespec) : Prop :=
  start.tv_sec < now.tv_sec ∨ (start.tv_sec = now.tv_sec ∧ start.tv_nsec ≤ now.tv_nsec)

instance (t : timespec) : Decidable t.valid := by
  unfold timespec.valid; infer_instance

instance (a b : timespec) : Decidable (timespec.le a b) := by
  unfold timespec.le; infer_instance

/-! ## The mixer task, as functions

`ALCarcanBackend_mixerProc` split along its source lines: start-up (lines
89-124), one pass of the loop body (lines 134-172) and the loop around it.
What the task gets from outside comes from an `Env`; what it does is recorded
as a trace of `Event`s. -/

/-- What the mixer task does that others can observe. -/
inductive Event where
  | lockOk
  | lockFail
  | resize_ext (abuf_sz abuf_cnt : Nat)
  | unlock
  | clock
  | sleep (ns : Nat)
  | yield
  | mix (frames : Nat)
  | signal
  deriving DecidableEq, Repr

/-- Everything the task reads from outside: the primary connection, the
results of the successive `altimespec_get` and `arcan_shmif_lock` calls, the
effect of `arcan_shmif_resize_ext` on the connection, and the successive
values read from the volatile `resize_pending`, from `killNow` and from
`Connected`. -/
structure Env where
  primary : Option ShmifCont
  clock : Nat → Option timespec
  lock : Nat → Bool
  resize_ext : ShmifCont → Nat → Nat → ShmifCont
  resize_pending : Nat → Bool
  killNow : Nat → Int
  Connected : Nat → Bool

/-- The task's variables inside the loop: the connection, `done`, the number
of clock calls, lock calls, flag reads and loop tests made so far (the next
index into the `Env`), and the trace. -/
structure MixState where
  acon : ShmifCont
  done : Nat
  clocks : Nat
  locks : Nat
  reads : Nat
  tests : Nat
  trace : List Event
  deriving DecidableEq, Repr

/-- The locals fixed once the loop is entered. -/
structure LoopEntry where
  start : timespec
  frame_sz : Nat
  restTime : Nat
  state : MixState
  deriving DecidableEq, Repr

/-- How start-up ends: a division by a zero `Frequency`, a `return` with an
exit status, or the pacing loop. -/
inductive Startup where
  | fault
  | exited (status : Nat)
  | looping (entry : LoopEntry)
  deriving DecidableEq, Repr

/-- The magic word of the side channel structure. -/
def sideChannelMagic : Nat := 0xfeedface

/-- Lines 89-124: `restTime`, the primary connection, the start time, the
buffer negotiation under the lock, and the size check after it.
`FrameSizeFromDevFmt` is the host library's function of that name. -/
def mixerStartup (FrameSizeFromDevFmt : Nat → Nat → Nat) (env : Env) (dev : ALCdevice) :
    Startup :=
  if dev.Frequency = 0 then Startup.fault
  else
    let restTime := mul64 dev.UpdateSize 1000000000 / dev.Frequency / 2
    match env.primary with
    | none => Startup.exited 1
    | some acon =>
      match env.clock 0 with
      | none => Startup.exited 1
      | some start =>
        if env.lock 0 = false then Startup.exited 1
        else
          let frame_sz := FrameSizeFromDevFmt dev.FmtChans dev.FmtType
          let need := mul64 frame_sz dev.UpdateSize
          let acon1 := if need ≠ acon.abufsize then env.resize_ext acon need 4 else acon
          let tr1 := if need ≠ acon.abufsize then [Event.resize_ext need 4] else []
          if need > acon1.abufsize then Startup.exited 1
          else Startup.looping
            { start := start, frame_sz := frame_sz, restTime := restTime,
              state :=
                { acon := acon1, done := 0, clocks := 1, locks := 1, reads := 0, tests := 0,
                  trace := [Event.clock, Event.lockOk] ++ tr1 ++ [Event.unlock] } }

/-- Lines 142-148: a clock that went backwards resets `done` to one update
before `avail`. -/
def clampDone (dev : ALCdevice) (avail : Nat) (s : MixState) : MixState :=
  if avail < s.done then { s with done := sub64 avail dev.UpdateSize } else s

/-- Lines 161-162: `while(sstruct->resize_pending) sched_yield();`.  Each
test of the loop is one read of the volatile flag; `none` when the fuel runs
out before the flag reads clear. -/
def spinResize (env : Env) : Nat → MixState → Option MixState
  | 0, _ => none
  | fuel + 1, s =>
    if env.resize_pending s.reads then
      spinResize env fuel { s with reads := s.reads + 1, trace := s.trace ++ [Event.yield] }
    else some { s with reads := s.reads + 1 }

/-- Lines 166-170: the publish of one chunk under the lock.  `aluMixData`
writes the samples into the audio buffer, `arcan_shmif_signal` notifies the
consumer and `arcan_shmif_unlock` gives the lock back; the three calls are
recorded in the trace, and the used-byte counter and `done` get the values
the task assigns.  `abits` is the width in bits of the `abufused` field. -/
def publishChunk (abits : Nat) (dev : ALCdevice) (frame_sz : Nat) (s : MixState) : MixState :=
  { s with
    acon := { s.acon with
      abufused := (s.acon.abufused + mul64 dev.UpdateSize frame_sz) % 2 ^ abits }
    done := add64 s.done dev.UpdateSize
    trace := s.trace ++ [Event.mix dev.UpdateSize, Event.signal, Event.unlock] }

/-- Lines 160-171, the body of the drain loop: the wait on the side channel
when the connection carries one, then one lock attempt and, when it is
granted, the publish. -/
def drainAttempt (abits : Nat) (env : Env) (dev : ALCdevice) (frame_sz : Nat) (fuel : Nat)
    (s : MixState) : Option MixState :=
  let waited := if s.acon.user = some sideChannelMagic then spinResize env fuel s else some s
  match waited with
  | none => none
  | some s1 =>
    if env.lock s1.locks then
      some (publishChunk abits dev frame_sz
        { s1 with locks := s1.locks + 1, trace := s1.trace ++ [Event.lockOk] })
    else some { s1 with locks := s1.locks + 1, trace := s1.trace ++ [Event.lockFail] }

/-- Line 152: `while(avail-done >= device->UpdateSize)` around the body. -/
def drain (abits : Nat) (env : Env) (dev : ALCdevice) (frame_sz avail : Nat) :
    Nat → MixState → Option MixState
  | 0, _ => none
  | fuel + 1, s =>
    if sub64 avail s.done ≥ dev.UpdateSize then
      match drainAttempt abits env dev frame_sz fuel s with
      | none => none
      | some s1 => drain abits env dev frame_sz avail fuel s1
    else some s

/-- Lines 150-172: sleep when less than one update is due, drain otherwise. -/
def pace (abits : Nat) (env : Env) (dev : ALCdevice) (frame_sz restTime avail fuel : Nat)
    (s : MixState) : Option MixState :=
  if sub64 avail s.done < dev.UpdateSize then
    some { s with trace := s.trace ++ [Event.sleep restTime] }
  else drain abits env dev frame_sz avail fuel s

/-- Lines 142-172: what one pass of the loop body does once `avail` is
computed. -/
def paceFrom (abits : Nat) (env : Env) (dev : ALCdevice) (frame_sz restTime avail fuel : Nat)
    (s : MixState) : Option MixState :=
  pace abits env dev frame_sz restTime avail fuel (clampDone dev avail s)

/-- How a pass of the loop body ends. -/
inductive Pass where
  | exited (status : Nat) (s : MixState)
  | next (s : MixState)
  deriving DecidableEq, Repr

/-- Lines 134-172: one pass of the loop body. -/
def loopBody (abits : Nat) (env : Env) (dev : ALCdevice) (e : LoopEntry) (fuel : Nat)
    (s : MixState) : Option Pass :=
  let s1 := { s with clocks := s.clocks + 1, trace := s.trace ++ [Event.clock] }
  match env.clock s.clocks with
  | none => some (Pass.exited 1 s1)
  | some now =>
    let avail := availFrames e.start now dev.Frequency
    match paceFrom abits env dev e.frame_sz e.restTime avail fuel s1 with
    | none => none
    | some s2 => some (Pass.next s2)

/-- Lines 132-175: the loop `while(!self->killNow && device->Connected)` and
the `return 0` after it. -/
def mixerLoop (abits : Nat) (env : Env) (dev : ALCdevice) (e : LoopEntry) :
    Nat → MixState → Option (Nat × MixState)
  | 0, _ => none
  | fuel + 1, s =>
    if env.killNow s.tests = 0 ∧ env.Connected s.tests = true then
      match loopBody abits env dev e fuel { s with tests := s.tests + 1 } with
      | none => none
      | some (Pass.exited status s1) => some (status, s1)
      | some (Pass.next s1) => mixerLoop abits env dev e fuel s1
    else some (0, { s with tests := s.tests + 1 })

/-- The task `ALCarcanBackend_mixerProc`: the exit status and the trace, `none` when
the task faults or is still running when the fuel is used up. -/
def ALCarcanBackend_mixerProc (FrameSizeFromDevFmt : Nat → Nat → Nat) (abits : Nat)
    (env : Env) (dev : ALCdevice) (fuel : Nat) : Option (Nat × List Event) :=
  match mixerStartup FrameSizeFromDevFmt env dev with
  | Startup.fault => none
  | Startup.exited status => some (status, [])
  | Startup.looping e =>
    match mixerLoop abits env dev e fuel e.state with
    | none => none
    | some (status, s) => some (status, s.trace)

/-! ## The mixer task, as a step relation

The same function statement by statement: a program counter, the locals, and
whether the task holds the surface lock. -/

/-- Control points of `ALCarcanBackend_mixerProc`, named after what the task
is about to do there (source line in the comment of each). -/
inductive PC where
  /-- Line 89. -/
  | restTime
  /-- Line 92. -/
  | primary
  /-- Line 100. -/
  | startClock
  /-- Line 106. -/
  | lockNegotiate
  /-- Lines 112-118. -/
  | negotiate
  /-- Line 119. -/
  | unlockNegotiate
  /-- Line 121. -/
  | checkSize
  /-- Line 132. -/
  | loopTest
  /-- Lines 134-148. -/
  | readClock
  /-- Line 150. -/
  | paceTest
  /-- Line 151. -/
  | sleep
  /-- Line 152. -/
  | drainTest
  /-- Line 160. -/
  | sideChannel
  /-- Line 161. -/
  | readPending
  /-- Line 162. -/
  | yield
  /-- Line 165. -/
  | lockPublish
  /-- Line 166. -/
  | mix
  /-- Lines 167-168. -/
  | advance
  /-- Line 169. -/
  | signal
  /-- Line 170. -/
  | unlockPublish
  /-- After a `return`. -/
  | exited (status : Nat)
  /-- After a division by zero. -/
  | faulted
  deriving DecidableEq, Repr

/-- The task between two statements.  `lockOks`, `unlocks` and `mixes` count
the granted locks, the unlocks and the `aluMixData` calls so far. -/
structure Task where
  pc : PC
  held : Bool
  acon : ShmifCont
  start : timespec
  frame_sz : Nat
  restTime : Nat
  avail : Nat
  done : Nat
  lockOks : Nat
  unlocks : Nat
  mixes : Nat
  deriving DecidableEq, Repr

/-- What the outside world answers to the statement being executed. -/
structure Input where
  primary : Option ShmifCont
  time : Option timespec
  lock : Bool
  resize_ext : ShmifCont → Nat → Nat → ShmifCont
  pending : Bool
  killNow : Int
  Connected : Bool

/-- One statement of the task; `none` once it has exited or faulted. -/
def step (FrameSizeFromDevFmt : Nat → Nat → Nat) (abits : Nat) (dev : ALCdevice) (i : Input)
    (s : Task) : Option Task :=
  match s.pc with
  | PC.restTime =>
    if dev.Frequency = 0 then some { s with pc := PC.faulted }
    else some { s with
      restTime := mul64 dev.UpdateSize 1000000000 / dev.Frequency / 2, pc := PC.primary }
  | PC.primary =>
    match i.primary with
    | none => some { s with pc := PC.exited 1 }
    | some acon => some { s with acon := acon, done := 0, pc := PC.startClock }
  | PC.startClock =>
    match i.time with
    | none => some { s with pc := PC.exited 1 }
    | some t => some { s with start := t, pc := PC.lockNegotiate }
  | PC.lockNegotiate =>
    if i.lock then some { s with held := true, lockOks := s.lockOks + 1, pc := PC.negotiate }
    else some { s with pc := PC.exited 1 }
  | PC.negotiate =>
    let frame_sz := FrameSizeFromDevFmt dev.FmtChans dev.FmtType
    let need := mul64 frame_sz dev.UpdateSize
    some { s with
      frame_sz := frame_sz
      acon := if need ≠ s.acon.abufsize then i.resize_ext s.acon need 4 else s.acon
      pc := PC.unlockNegotiate }
  | PC.unlockNegotiate =>
    some { s with held := false, unlocks := s.unlocks + 1, pc := PC.checkSize }
  | PC.checkSize =>
    if mul64 s.frame_sz dev.UpdateSize > s.acon.abufsize then some { s with pc := PC.exited 1 }
    else some { s with pc := PC.loopTest }
  | PC.loopTest =>
    if i.killNow = 0 ∧ i.Connected = true then some { s with pc := PC.readClock }
    else some { s with pc := PC.exited 0 }
  | PC.readClock =>
    match i.time with
    | none => some { s with pc := PC.exited 1 }
    | some now =>
      let avail := availFrames s.start now dev.Frequency
      some { s with
        avail := avail
        done := if avail < s.done then sub64 avail dev.UpdateSize else s.done
        pc := PC.paceTest }
  | PC.paceTest =>
    if sub64 s.avail s.done < dev.UpdateSize then some { s with pc := PC.sleep }
    else some { s with pc := PC.drainTest }
  | PC.sleep => some { s with pc := PC.loopTest }
  | PC.drainTest =>
    if sub64 s.avail s.done ≥ dev.UpdateSize then some { s with pc := PC.sideChannel }
    else some { s with pc := PC.loopTest }
  | PC.sideChannel =>
    if s.acon.user = some sideChannelMagic then some { s with pc := PC.readPending }
    else some { s with pc := PC.lockPublish }
  | PC.readPending =>
    if i.pending then some { s with pc := PC.yield }
    else some { s with pc := PC.lockPublish }
  | PC.yield => some { s with pc := PC.readPending }
  | PC.lockPublish =>
    if i.lock then some { s with held := true, lockOks := s.lockOks + 1, pc := PC.mix }
    else some { s with pc := PC.drainTest }
  | PC.mix => some { s with mixes := s.mixes + 1, pc := PC.advance }
  | PC.advance =>
    some { s with
      acon := { s.acon with
        abufused := (s.acon.abufused + mul64 dev.UpdateSize s.frame_sz) % 2 ^ abits }
      done := add64 s.done dev.UpdateSize
      pc := PC.signal }
  | PC.signal => some { s with pc := PC.unlockPublish }
  | PC.unlockPublish =>
    some { s with held := false, unlocks := s.unlocks + 1, pc := PC.drainTest }
  | PC.exited _ => none
  | PC.faulted => none

/-- The step relation of the task: some answer of the outside world leads
from `s` to `t`. -/
def Step (FrameSizeFromDevFmt : Nat → Nat → Nat) (abits : Nat) (dev : ALCdevice)
    (s t : Task) : Prop :=
  ∃ i : Input, step FrameSizeFromDevFmt abits dev i s = some t

/-- The task when its thread starts: at the first statement, holding no lock,
the locals not yet set. -/
def Task.initial (s : Task) : Prop :=
  s.pc = PC.restTime ∧ s.held = false ∧ s.lockOks = 0 ∧ s.unlocks = 0 ∧ s.mixes = 0

/-- States the task can reach from its start. -/
inductive Reachable (FrameSizeFromDevFmt : Nat → Nat → Nat) (abits : Nat) (dev : ALCdevice) :
    Task → Prop where
  | start (s : Task) (h : s.initial) : Reachable FrameSizeFromDevFmt abits dev s
  | next (s t : Task) (hs : Reachable FrameSizeFromDevFmt abits dev s)
      (h : Step FrameSizeFromDevFmt abits dev s t) : Reachable FrameSizeFromDevFmt abits dev t

/-- Runs `n` statements against a sequence of answers. -/
def runTask (FrameSizeFromDevFmt : Nat → Nat → Nat) (abits : Nat) (dev : ALCdevice)
    (ins : Nat → Input) : Nat → Task → Option Task
  | 0, s => some s
  | n + 1, s =>
    match step FrameSizeFromDevFmt abits dev (ins 0) s with
    | none => none
    | some t => runTask FrameSizeFromDevFmt abits dev (fun k => ins (k + 1)) n t

/-- The control points inside a critical section: buffer negotiation (lines
112-119) and the publish of one chunk (lines 166-170). -/
def PC.critical : PC → Bool
  | PC.negotiate => true
  | PC.unlockNegotiate => true
  | PC.mix => true
  | PC.advance => true
  | PC.signal => true
  | PC.unlockPublish => true
  | _ => false

/-- The control points at which the task sleeps, yields on the resize-pending
flag, reads the clock or has exited. -/
def PC.waiting : PC → Bool
  | PC.sleep => true
  | PC.yield => true
  | PC.readPending => true
  | PC.startClock => true
  | PC.readClock => true
  | PC.exited _ => true
  | PC.faulted => true
  | _ => false

/-- Number of statements from a control point in a critical section to the
end of that section. -/
def PC.toUnlock : PC → Nat
  | PC.negotiate => 2
  | PC.unlockNegotiate => 1
  | PC.mix => 4
  | PC.advance => 3
  | PC.signal => 2
  | PC.unlockPublish => 1
  | _ => 0

/-! ## Reading a trace -/

/-- Number of granted `arcan_shmif_lock` calls in a trace. -/
def lockCalls (tr : List Event) : Nat := tr.count Event.lockOk

/-- Number of `aluMixData` calls in a trace. -/
def mixCalls (tr : List Event) : Nat :=
  (tr.filter fun e => match e with
    | Event.mix _ => true
    | _ => false).length

/-- Number of `arcan_shmif_signal` calls in a trace. -/
def signalCalls (tr : List Event) : Nat := tr.count Event.signal

/-- Number of `arcan_shmif_unlock` calls in a trace. -/
def unlockCalls (tr : List Event) : Nat := tr.count Event.unlock

/-- Number of `al_nssleep` calls in a trace. -/
def sleepCalls (tr : List Event) : Nat :=
  (tr.filter fun e => match e with
    | Event.sleep _ => true
    | _ => false).length

/-- The trace of `n` chunks published one after the other, each under a lock
granted at the first attempt. -/
def chunkTrace (frames : Nat) : Nat → List Event
  | 0 => []
  | n + 1 =>
    [Event.lockOk, Event.mix frames, Event.signal, Event.unlock] ++ chunkTrace frames n

/-! ## The two views of the task side by side -/

/-- The answers an `Env` gives to the statement being executed when `c`
clock calls, `l` lock calls, `r` flag reads and `k` loop tests were made
before. -/
def Env.answer (env : Env) (c l r k : Nat) : Input :=
  { primary := env.primary
    time := env.clock c
    lock := env.lock l
    resize_ext := env.resize_ext
    pending := env.resize_pending r
    killNow := env.killNow k
    Connected := env.Connected k }

/-- Zero or more statements of the task. -/
def StepStar (FrameSizeFromDevFmt : Nat → Nat → Nat) (abits : Nat) (dev : ALCdevice) :
    Task → Task → Prop :=
  Relation.ReflTransGen (Step FrameSizeFromDevFmt abits dev)

/-- The task between two statements of the loop, outside the critical
sections, holds what the loop state `s` entered with `e` holds: the same
connection, `done` and locals, and counters that count the trace. -/
def Task.agrees (t : Task) (e : LoopEntry) (s : MixState) : Prop :=
  t.held = false ∧ t.acon = s.acon ∧ t.done = s.done ∧ t.start = e.start ∧
  t.frame_sz = e.frame_sz ∧ t.restTime = e.restTime ∧
  t.lockOks = lockCalls s.trace ∧ t.unlocks = unlockCalls s.trace ∧
  t.mixes = mixCalls s.trace

/-! ## Sample values -/

/-- A device after `reset`: 48 kHz, stereo, signed 16-bit, updates of 1024
frames. -/
def sampleDevice : ALCdevice :=
  { Frequency := 48000, UpdateSize := 1024, FmtChans := ALC_STEREO_SOFT,
    FmtType := ALC_SHORT_SOFT, ChannelName := [], DeviceName := arcanDevice }

/-- The frame size of the host library at the sample device: two channels of
two bytes each. -/
def sampleFrameSize : Nat → Nat → Nat := fun _ _ => 4

/-- A connection without an audio buffer and without a side channel. -/
def sampleCont : ShmifCont :=
  { w := 640, h := 480, abufsize := 0, abufused := 0, abufpos := 0, user := none, outev := [] }

/-- An outside world in which the clock advances by a second per call, every
lock is granted, a resize request is served as asked, no resize is pending
and the stop comes at the fourth loop test. -/
def sampleEnv : Env :=
  { primary := some sampleCont
    clock := fun k => some { tv_sec := k, tv_nsec := 0 }
    lock := fun _ => true
    resize_ext := fun c sz _ => { c with abufsize := sz }
    resize_pending := fun _ => false
    killNow := fun k => if k < 3 then 0 else 1
    Connected := fun _ => true }

/-- The sample world with a lock that is refused three times, then granted. -/
def busyEnv : Env := { sampleEnv with lock := fun k => decide (3 ≤ k) }

/-- The task inside the loop with nothing done yet and an empty trace. -/
def sampleState : MixState :=
  { acon := { sampleCont with abufsize := 4096 }, done := 0, clocks := 1, locks := 0,
    reads := 0, tests := 0, trace := [] }

/-- The answers of the sample world to a single statement: a connection, a
clock at zero, a granted lock, a resize served as asked, no resize pending,
no stop. -/
def sampleInput : Input :=
  { primary := some sampleCont
    time := some { tv_sec := 0, tv_nsec := 0 }
    lock := true
    resize_ext := fun c sz _ => { c with abufsize := sz }
    pending := false
    killNow := 0
    Connected := true }

/-- The task at its first statement. -/
def sampleTask : Task :=
  { pc := PC.restTime, held := false, acon := sampleCont, start := { tv_sec := 0, tv_nsec := 0 },
    frame_sz := 0, restTime := 0, avail := 0, done := 0, lockOks := 0, unlocks := 0, mixes := 0 }

/-- The task four statements later, negotiating the buffer under the lock. -/
def negotiatingTask : Task :=
  { sampleTask with pc := PC.negotiate, held := true, restTime := 10666666, lockOks := 1 }

/-- The locals of the sample task when it enters the loop at time zero. -/
def sampleEntry : LoopEntry :=
  { start := { tv_sec := 0, tv_nsec := 0 }, frame_sz := 4, restTime := 10666666,
    state := sampleState }

/-! # Theorems -/

/-! ## Helper lemmas -/

theorem strcmp_self (a : List Char) : strcmp a a = 0 := by
  induction a with
  | nil => rfl
  | cons c cs ih => simp [strcmp, ih]

theorem strcmp_eq_zero (a b : List Char) (ha : ∀ c ∈ a, c.toNat ≠ 0)
    (hb : ∀ c ∈ b, c.toNat ≠ 0) (h : strcmp a b = 0) : a = b := by
  induction a generalizing b with
  | nil =>
    cases b with
    | nil => rfl
    | cons d ds =>
      have := hb d (by simp)
      simp [strcmp] at h
      omega
  | cons c cs ih =>
    cases b with
    | nil =>
      have := ha c (by simp)
      simp [strcmp] at h
      omega
    | cons d ds =>
      by_cases hcd : c = d
      · subst hcd
        simp [strcmp] at h
        rw [ih ds (fun x hx => ha x (by simp [hx])) (fun x hx => hb x (by simp [hx])) h]
      · simp [strcmp, hcd] at h
        exfalso
        apply hcd
        apply Char.ext
        apply UInt32.ext
        have : (c.toNat : Int) = d.toNat := by omega
        have h2 : c.toNat = d.toNat := by exact_mod_cast this
        simpa [Char.toNat, UInt32.toNat] using h2

theorem arcanDevice_no_nul : ∀ c ∈ arcanDevice, c.toNat ≠ 0 := by decide

/-! ## Device lifecycle -/

/-- C6: `open` succeeds exactly when the requested name is unset or equals
the fixed device name "arcan"; then it returns no-error and the device name
is "arcan"; for every other name it returns invalid-value and the device,
its name included, is as before.  A requested name is a C string: it holds no
NUL character. -/
theorem open_accepts_only_arcan (dev : ALCdevice) (name : Option (List Char))
    (hname : ∀ n, name = some n → ∀ c ∈ n, c.toNat ≠ 0) :
    ((ALCarcanBackend_open dev name).2 = ALC_NO_ERROR ↔
        (name = none ∨ name = some arcanDevice)) ∧
    ((name = none ∨ name = some arcanDevice) →
        ALCarcanBackend_open dev name =
          ({ dev with DeviceName := arcanDevice }, ALC_NO_ERROR)) ∧
    (¬ (name = none ∨ name = some arcanDevice) →
        ALCarcanBackend_open dev name = (dev, ALC_INVALID_VALUE)) := by
  cases name with
  | none => simp [ALCarcanBackend_open]
  | some n =>
    by_cases hn : n = arcanDevice
    · subst hn
      simp [ALCarcanBackend_open, strcmp_self]
    · have hne : strcmp n arcanDevice ≠ 0 := fun h0 =>
        hn (strcmp_eq_zero n arcanDevice (hname n rfl) arcanDevice_no_nul h0)
      simp [ALCarcanBackend_open, hne, hn, ALC_NO_ERROR, ALC_INVALID_VALUE]

/-- C6 at the names NULL, "arcan" and "other". -/
theorem open_accepts_only_arcan_witness :
    (ALCarcanBackend_open ⟨48000, 1024, 0, 0, [], "old".toList⟩ none).1.DeviceName
        = "arcan".toList ∧
    ALCarcanBackend_open ⟨48000, 1024, 0, 0, [], "old".toList⟩ (some "other".toList)
        = (⟨48000, 1024, 0, 0, [], "old".toList⟩, ALC_INVALID_VALUE) ∧
    ((ALCarcanBackend_open ⟨48000, 1024, 0, 0, [], "old".toList⟩ (some "other".toList)).2
        = ALC_NO_ERROR ↔
      ((some "other".toList : Option (List Char)) = none ∨
        some "other".toList = some arcanDevice)) := by
  have h := open_accepts_only_arcan ⟨48000, 1024, 0, 0, [], "old".toList⟩
    (some "other".toList) (by decide)
  refine ⟨by decide, ?_, h.1⟩
  exact h.2.2 (by decide)

/-- C4: `stop` twice in a row joins at most once; the second call joins
nothing and leaves the backend exactly as the first call left it. -/
theorem stop_idempotent (self : ALCarcanBackend) :
    joinCount ((ALCarcanBackend_stop self).2 ++
        (ALCarcanBackend_stop (ALCarcanBackend_stop self).1).2) ≤ 1 ∧
    (ALCarcanBackend_stop (ALCarcanBackend_stop self).1).2 = [] ∧
    (ALCarcanBackend_stop (ALCarcanBackend_stop self).1).1 = (ALCarcanBackend_stop self).1 := by
  by_cases h : self.killNow = 0
  · simp [ALCarcanBackend_stop, h, joinCount]
  · simp [ALCarcanBackend_stop, h, joinCount]

/-- C5, at a freshly constructed backend: no task is running and `start` was
never called, yet `stop` sets the cancellation flag and joins the task handle
that was never set.  The same happens after a `start` that failed to create
the task; after a first `stop` the guard does make `stop` a no-op. -/
theorem stop_on_fresh_backend_joins :
    (ALCarcanBackend_Construct zeroedBackend).running = false ∧
    ALCarcanBackend_stop (ALCarcanBackend_Construct zeroedBackend) =
      ({ killNow := 1, thread := 0, running := false }, [ThreadCall.join 0]) ∧
    (ALCarcanBackend_stop (ALCarcanBackend_Construct zeroedBackend)).1 ≠
      ALCarcanBackend_Construct zeroedBackend ∧
    (ALCarcanBackend_start none { killNow := 1, thread := 7, running := false }).1.running
      = false ∧
    (ALCarcanBackend_stop
      (ALCarcanBackend_start none { killNow := 1, thread := 7, running := false }).1).2
      = [ThreadCall.join 7] := by
  decide

/-- C7: without a surface `reset` returns failure with the device unchanged
and nothing enqueued; with a surface it returns success, the device is
stereo, signed 16-bit, at the surface's sample rate, the buffer cursor is 0
and the outgoing queue has grown by exactly one flush-audio event. -/
theorem reset_contract (SAMPLERATE : Nat) (wfxOrder : Nat → List Nat) (dev : ALCdevice) :
    ALCarcanBackend_reset SAMPLERATE wfxOrder none dev = (dev, none, false) ∧
    ∀ cont : ShmifCont,
      (ALCarcanBackend_reset SAMPLERATE wfxOrder (some cont) dev).2.2 = true ∧
      (ALCarcanBackend_reset SAMPLERATE wfxOrder (some cont) dev).1.FmtChans
        = ALC_STEREO_SOFT ∧
      (ALCarcanBackend_reset SAMPLERATE wfxOrder (some cont) dev).1.FmtType
        = ALC_SHORT_SOFT ∧
      (ALCarcanBackend_reset SAMPLERATE wfxOrder (some cont) dev).1.Frequency
        = SAMPLERATE ∧
      (ALCarcanBackend_reset SAMPLERATE wfxOrder (some cont) dev).2.1 =
        some { cont with abufpos := 0, outev := cont.outev ++ [EventKind.FLUSHAUD] } := by
  refine ⟨rfl, fun cont => ⟨rfl, rfl, rfl, rfl, rfl⟩⟩

/-! ## Start-up of the mixer task -/

theorem mul64_of_lt (a b : Nat) (ha : a < 2 ^ 32) (hb : b < 2 ^ 32) : mul64 a b = a * b := by
  have h : a * b < 2 ^ 32 * 2 ^ 32 := Nat.mul_lt_mul'' ha hb
  exact Nat.mod_eq_of_lt (by simpa using h)

/-- C1: for every device with a nonzero sample rate, whatever the primary
connection, the clock, the lock and the resize request do, start-up either
returns exit status 1 or enters the pacing loop with an audio buffer of at
least `frame_size * UpdateSize` bytes.  `UpdateSize` and the frame size are
32-bit values. -/
theorem startup_never_underallocates (FrameSizeFromDevFmt : Nat → Nat → Nat) (env : Env)
    (dev : ALCdevice) (hF : 0 < dev.Frequency) (hU : dev.UpdateSize < 2 ^ 32)
    (hfs : FrameSizeFromDevFmt dev.FmtChans dev.FmtType < 2 ^ 32) :
    mixerStartup FrameSizeFromDevFmt env dev = Startup.exited 1 ∨
    ∃ e : LoopEntry, mixerStartup FrameSizeFromDevFmt env dev = Startup.looping e ∧
      e.frame_sz = FrameSizeFromDevFmt dev.FmtChans dev.FmtType ∧
      e.frame_sz * dev.UpdateSize ≤ e.state.acon.abufsize := by
  have hm := mul64_of_lt _ _ hfs hU
  unfold mixerStartup
  rw [if_neg (Nat.pos_iff_ne_zero.mp hF)]
  cases hp : env.primary with
  | none => exact Or.inl rfl
  | some acon =>
    cases hc : env.clock 0 with
    | none => exact Or.inl rfl
    | some start =>
      cases hl : env.lock 0 with
      | false => exact Or.inl rfl
      | true =>
        simp only [hm]
        by_cases hgt : FrameSizeFromDevFmt dev.FmtChans dev.FmtType * dev.UpdateSize >
            (if FrameSizeFromDevFmt dev.FmtChans dev.FmtType * dev.UpdateSize ≠ acon.abufsize
              then env.resize_ext acon
                (FrameSizeFromDevFmt dev.FmtChans dev.FmtType * dev.UpdateSize) 4
              else acon).abufsize
        · rw [if_pos hgt]
          exact Or.inl rfl
        · rw [if_neg hgt]
          exact Or.inr ⟨_, rfl, rfl, Nat.le_of_not_lt hgt⟩

/-- C1 at the sample device: start-up enters the loop with the 4096 bytes it
asked for. -/
theorem startup_never_underallocates_witness :
    mixerStartup sampleFrameSize sampleEnv sampleDevice = Startup.exited 1 ∨
    ∃ e : LoopEntry, mixerStartup sampleFrameSize sampleEnv sampleDevice = Startup.looping e ∧
      e.frame_sz = sampleFrameSize sampleDevice.FmtChans sampleDevice.FmtType ∧
      e.frame_sz * sampleDevice.UpdateSize ≤ e.state.acon.abufsize :=
  startup_never_underallocates sampleFrameSize sampleEnv sampleDevice
    (by decide) (by decide) (by decide)

/-! ## Elapsed time in frames -/

theorem wrapI64_of_range (x : Int) (h1 : -2 ^ 63 ≤ x) (h2 : x < 2 ^ 63) : wrapI64 x = x := by
  unfold wrapI64
  omega

theorem toU64_of_range (x : Int) (h1 : 0 ≤ x) (h2 : x < 2 ^ 64) : (toU64 x : Int) = x := by
  unfold toU64
  omega

theorem tdiv_of_nonneg (x : Int) (h : 0 ≤ x) : x.tdiv 1000000000 = x / 1000000000 :=
  Int.tdiv_eq_ediv h (by decide)

theorem tdiv_of_neg (x : Int) (h : x < 0) : x.tdiv 1000000000 = -((-x) / 1000000000) := by
  have h1 : x = -(-x) := by omega
  rw [h1, Int.neg_tdiv, Int.tdiv_eq_ediv (by omega) (by decide)]
  simp

theorem nsec_product_bounds (d : Int) (F : Nat) (h1 : -1000000000 < d) (h2 : d < 1000000000)
    (hF : F < 2 ^ 32) :
    -(1000000000 * 2 ^ 32) < d * (F : Int) ∧ d * (F : Int) < 1000000000 * 2 ^ 32 ∧
    -(1000000000 * (F : Int)) ≤ d * (F : Int) ∧ d * (F : Int) ≤ 1000000000 * (F : Int) := by
  have hF0 : (0 : Int) ≤ (F : Int) := Int.ofNat_nonneg F
  have hF1 : (F : Int) < 2 ^ 32 := by exact_mod_cast hF
  refine ⟨by nlinarith, by nlinarith, by nlinarith, by nlinarith⟩

/-- The value lines 140-141 compute when the 64-bit arithmetic does not
overflow: whole seconds times the rate, plus the nanosecond part converted
with a quotient truncated towards zero. -/
theorem availFrames_value (start now : timespec) (F : Nat)
    (hs : start.valid) (hn : now.valid) (hle : timespec.le start now)
    (hF0 : 0 < F) (hF : F < 2 ^ 32)
    (hov : (now.tv_sec - start.tv_sec) * (F : Int) < 2 ^ 63) :
    (availFrames start now F : Int) =
      (now.tv_sec - start.tv_sec) * (F : Int) +
        Int.tdiv ((now.tv_nsec - start.tv_nsec) * (F : Int)) 1000000000 ∧
    (now.tv_sec - start.tv_sec = 0 → 0 ≤ now.tv_nsec - start.tv_nsec) ∧
    0 ≤ (now.tv_sec - start.tv_sec) * (F : Int) := by
  obtain ⟨hs0, hs1⟩ := hs
  obtain ⟨hn0, hn1⟩ := hn
  have hF1 : (1 : Int) ≤ (F : Int) := by exact_mod_cast hF0
  have hF2 : (F : Int) < 2 ^ 32 := by exact_mod_cast hF
  have hds0 : 0 ≤ now.tv_sec - start.tv_sec := by
    rcases hle with h | ⟨h, _⟩ <;> omega
  have hdn : now.tv_sec - start.tv_sec = 0 → 0 ≤ now.tv_nsec - start.tv_nsec := by
    intro h0
    rcases hle with h | ⟨_, h⟩ <;> omega
  have hP0 : 0 ≤ (now.tv_sec - start.tv_sec) * (F : Int) := Int.mul_nonneg hds0 (by omega)
  have hds1 : now.tv_sec - start.tv_sec < 2 ^ 63 := by nlinarith
  have hPF : now.tv_sec - start.tv_sec ≠ 0 →
      (F : Int) ≤ (now.tv_sec - start.tv_sec) * (F : Int) := by
    intro hne
    have : 1 ≤ now.tv_sec - start.tv_sec := by omega
    nlinarith
  obtain ⟨hQ1, hQ2, hQ3, hQ4⟩ :=
    nsec_product_bounds (now.tv_nsec - start.tv_nsec) F (by omega) (by omega) hF
  have hdnn : 0 ≤ now.tv_nsec - start.tv_nsec →
      0 ≤ (now.tv_nsec - start.tv_nsec) * (F : Int) := fun h => Int.mul_nonneg h (by omega)
  refine ⟨?_, hdn, hP0⟩
  unfold availFrames
  simp only []
  rw [wrapI64_of_range (now.tv_sec - start.tv_sec) (by omega) hds1,
    wrapI64_of_range ((now.tv_sec - start.tv_sec) * (F : Int)) (by omega) hov,
    wrapI64_of_range (now.tv_nsec - start.tv_nsec) (by omega) (by omega),
    wrapI64_of_range ((now.tv_nsec - start.tv_nsec) * (F : Int)) (by omega) (by omega),
    toU64_of_range ((now.tv_sec - start.tv_sec) * (F : Int)) hP0 (by omega)]
  generalize hP : (now.tv_sec - start.tv_sec) * (F : Int) = P at *
  generalize hQ : (now.tv_nsec - start.tv_nsec) * (F : Int) = Q at *
  apply toU64_of_range
  · rcases Int.lt_or_le Q 0 with hneg | hpos
    · rw [tdiv_of_neg Q hneg]
      have : now.tv_sec - start.tv_sec ≠ 0 := by
        intro h0
        have := hdnn (hdn h0)
        omega
      have := hPF this
      omega
    · rw [tdiv_of_nonneg Q hpos]
      omega
  · rcases Int.lt_or_le Q 0 with hneg | hpos
    · rw [tdiv_of_neg Q hneg]
      omega
    · rw [tdiv_of_nonneg Q hpos]
      omega

/-- C10 as stated fails: from 0 s + 1 ns to 1 s + 0 ns at 44100 Hz the
elapsed 999999999 ns are 44099 whole frames, and the code computes 44100. -/
theorem availFrames_not_floor_on_borrow :
    timespec.valid ⟨0, 1⟩ ∧ timespec.valid ⟨1, 0⟩ ∧ timespec.le ⟨0, 1⟩ ⟨1, 0⟩ ∧
    elapsedNanoseconds ⟨0, 1⟩ ⟨1, 0⟩ = 999999999 ∧
    availFrames ⟨0, 1⟩ ⟨1, 0⟩ 44100 = 44100 ∧
    specAvail ⟨0, 1⟩ ⟨1, 0⟩ 44100 = 44099 ∧
    (availFrames ⟨0, 1⟩ ⟨1, 0⟩ 44100 : Int) ≠ specAvail ⟨0, 1⟩ ⟨1, 0⟩ 44100 := by
  decide

/-- C10, amended: for timestamps with `now >= start`, a 32-bit rate `F > 0`
and no overflow of the 64-bit product of the whole seconds with `F`, `avail`
is the elapsed time in frames rounded down when `now.nsec >= start.nsec`, and
rounded up when `now.nsec < start.nsec`; in both cases it is the rounded-down
value or one more. -/
theorem availFrames_floor_or_ceil (start now : timespec) (F : Nat)
    (hs : start.valid) (hn : now.valid) (hle : timespec.le start now)
    (hF0 : 0 < F) (hF : F < 2 ^ 32)
    (hov : (now.tv_sec - start.tv_sec) * (F : Int) < 2 ^ 63) :
    (start.tv_nsec ≤ now.tv_nsec → (availFrames start now F : Int) = specAvail start now F) ∧
    (now.tv_nsec < start.tv_nsec → (availFrames start now F : Int) = ceilAvail start now F) ∧
    specAvail start now F ≤ (availFrames start now F : Int) ∧
    (availFrames start now F : Int) ≤ specAvail start now F + 1 := by
  obtain ⟨hv, -, -⟩ := availFrames_value start now F hs hn hle hF0 hF hov
  have hF1 : (0 : Int) ≤ (F : Int) := Int.ofNat_nonneg F
  have hsplit : elapsedNanoseconds start now * (F : Int) =
      (now.tv_sec - start.tv_sec) * (F : Int) * 1000000000 +
        (now.tv_nsec - start.tv_nsec) * (F : Int) := by
    unfold elapsedNanoseconds
    ring
  have hsign1 : 0 ≤ now.tv_nsec - start.tv_nsec →
      0 ≤ (now.tv_nsec - start.tv_nsec) * (F : Int) := fun h => Int.mul_nonneg h hF1
  have hsign2 : now.tv_nsec - start.tv_nsec < 0 →
      (now.tv_nsec - start.tv_nsec) * (F : Int) ≤ 0 := fun h =>
    Int.mul_nonpos_of_nonpos_of_nonneg (by omega) hF1
  rw [hv]
  unfold ceilAvail specAvail
  rw [Int.fdiv_eq_ediv _ (by decide), Int.fdiv_eq_ediv _ (by decide), hsplit]
  generalize (now.tv_sec - start.tv_sec) * (F : Int) = P at *
  generalize (now.tv_nsec - start.tv_nsec) * (F : Int) = Q at *
  rcases Int.lt_or_le Q 0 with hneg | hpos
  · rw [tdiv_of_neg Q hneg]
    refine ⟨fun h => ?_, fun _ => ?_, ?_, ?_⟩
    · have := hsign1 (by omega)
      omega
    · omega
    · omega
    · omega
  · rw [tdiv_of_nonneg Q hpos]
    refine ⟨fun _ => ?_, fun h => ?_, ?_, ?_⟩
    · omega
    · have := hsign2 (by omega)
      have hQ0 : Q = 0 := by omega
      subst hQ0
      omega
    · omega
    · omega

/-- C10, amended, at a nanosecond borrow and without one. -/
theorem availFrames_floor_or_ceil_witness :
    (availFrames ⟨5, 999999999⟩ ⟨7, 3⟩ 48000 : Int) = ceilAvail ⟨5, 999999999⟩ ⟨7, 3⟩ 48000 ∧
    specAvail ⟨5, 999999999⟩ ⟨7, 3⟩ 48000 ≤ (availFrames ⟨5, 999999999⟩ ⟨7, 3⟩ 48000 : Int) :=
  have h := availFrames_floor_or_ceil ⟨5, 999999999⟩ ⟨7, 3⟩ 48000
    (by decide) (by decide) (by decide) (by decide) (by decide) (by decide)
  ⟨h.2.1 (by decide), h.2.2.1⟩

/-! ## The pacing loop -/

theorem sub64_of_le (a b : Nat) (hb : b ≤ a) (ha : a < 2 ^ 64) : sub64 a b = a - b := by
  unfold sub64
  omega

theorem sub64_sub64_self (a u : Nat) (hu : u < 2 ^ 64) :
    sub64 a (sub64 a u) = u := by
  unfold sub64
  omega

theorem add64_sub64 (a u : Nat) (ha : a < 2 ^ 64) :
    add64 (sub64 a u) u = a := by
  unfold add64 sub64
  omega

theorem sub64_self (a : Nat) : sub64 a a = 0 := by
  unfold sub64
  omega

theorem spinResize_clear (env : Env) (fuel : Nat) (s : MixState)
    (h : env.resize_pending s.reads = false) :
    spinResize env (fuel + 1) s = some { s with reads := s.reads + 1 } := by
  simp [spinResize, h]

/-- The wait on the side channel returns at once when the flag reads clear,
and changes nothing but the count of reads. -/
theorem drainAttempt_granted (abits : Nat) (env : Env) (dev : ALCdevice) (frame_sz fuel : Nat)
    (s : MixState) (hp : env.resize_pending s.reads = false) (hl : env.lock s.locks = true) :
    ∃ r, drainAttempt abits env dev frame_sz (fuel + 1) s =
      some (publishChunk abits dev frame_sz
        { s with reads := r, locks := s.locks + 1, trace := s.trace ++ [Event.lockOk] }) := by
  unfold drainAttempt
  by_cases hu : s.acon.user = some sideChannelMagic
  · refine ⟨s.reads + 1, ?_⟩
    simp [hu, spinResize_clear env fuel s hp, hl]
  · refine ⟨s.reads, ?_⟩
    simp [hu, hl]

theorem abufused_advance (a x n abits : Nat) (hab : abits ≤ 64) :
    ((a + mul64 x 1) % 2 ^ abits + n * x) % 2 ^ abits = (a + (n + 1) * x) % 2 ^ abits := by
  have hdvd : 2 ^ abits ∣ 2 ^ 64 := Nat.pow_dvd_pow 2 hab
  have h1 : Nat.ModEq (2 ^ abits) (mul64 x 1) x := by
    unfold mul64
    rw [Nat.mul_one]
    exact (Nat.mod_modEq x (2 ^ 64)).of_dvd hdvd
  have h2 : Nat.ModEq (2 ^ abits) ((a + mul64 x 1) % 2 ^ abits) (a + x) :=
    (Nat.mod_modEq _ _).trans (Nat.ModEq.add_left a h1)
  have h3 : Nat.ModEq (2 ^ abits) ((a + mul64 x 1) % 2 ^ abits + n * x) (a + x + n * x) :=
    Nat.ModEq.add_right _ h2
  have h4 : a + x + n * x = a + (n + 1) * x := by ring
  rw [← h4]
  exact h3

theorem mul64_mul_one (u f : Nat) : mul64 u f = mul64 (u * f) 1 := by
  simp [mul64]

/-- With every lock granted and no resize pending, the drain loop publishes
exactly the whole chunks that are due. -/
theorem drain_publishes (abits : Nat) (env : Env) (dev : ALCdevice) (frame_sz avail : Nat)
    (hU0 : 0 < dev.UpdateSize) (hab : abits ≤ 64) (havail : avail < 2 ^ 64)
    (hl : ∀ k, env.lock k = true) (hp : ∀ k, env.resize_pending k = false)
    (N r k : Nat) (hr : r < dev.UpdateSize) (s : MixState)
    (hd : s.done + N * dev.UpdateSize + r = avail) (hused : s.acon.abufused < 2 ^ abits) :
    ∃ s', drain abits env dev frame_sz avail (N + 1 + k) s = some s' ∧
      s'.done = s.done + N * dev.UpdateSize ∧
      s'.trace = s.trace ++ chunkTrace dev.UpdateSize N ∧
      s'.acon.abufused = (s.acon.abufused + N * (dev.UpdateSize * frame_sz)) % 2 ^ abits ∧
      s'.locks = s.locks + N := by
  induction N generalizing s with
  | zero =>
    refine ⟨s, ?_, by simp, by simp [chunkTrace], ?_, rfl⟩
    · have hlt : sub64 avail s.done < dev.UpdateSize := by
        rw [sub64_of_le avail s.done (by omega) havail]
        omega
      have hfuel : 0 + 1 + k = k + 1 := by omega
      rw [hfuel, drain, if_neg (Nat.not_le_of_lt hlt)]
    · simp [Nat.mod_eq_of_lt hused]
  | succ n ih =>
    have hmul : (n + 1) * dev.UpdateSize = n * dev.UpdateSize + dev.UpdateSize := by ring
    have hge : sub64 avail s.done ≥ dev.UpdateSize := by
      rw [sub64_of_le avail s.done (by omega) havail]
      omega
    obtain ⟨rd, hatt⟩ := drainAttempt_granted abits env dev frame_sz (n + k) s (hp _) (hl _)
    have hfuel : n + 1 + 1 + k = (n + k + 1) + 1 := by omega
    have hfuel2 : n + k + 1 = n + 1 + k := by omega
    rw [hfuel, drain, if_pos hge, hatt]
    simp only []
    rw [hfuel2]
    have hdone1 : add64 s.done dev.UpdateSize = s.done + dev.UpdateSize := by
      unfold add64
      apply Nat.mod_eq_of_lt
      omega
    obtain ⟨s', h1, h2, h3, h4, h5⟩ := ih
      (publishChunk abits dev frame_sz
        { s with reads := rd, locks := s.locks + 1, trace := s.trace ++ [Event.lockOk] })
      (by simp only [publishChunk]; rw [hdone1]; omega)
      (by simp only [publishChunk]; exact Nat.mod_lt _ (Nat.two_pow_pos abits))
    refine ⟨s', h1, ?_, ?_, ?_, ?_⟩
    · rw [h2]
      simp only [publishChunk]
      rw [hdone1]
      omega
    · rw [h3]
      simp [publishChunk, chunkTrace]
    · rw [h4]
      simp only [publishChunk]
      rw [mul64_mul_one]
      exact abufused_advance _ _ _ _ hab
    · rw [h5]
      simp only [publishChunk]
      omega

theorem mixCalls_append (a b : List Event) : mixCalls (a ++ b) = mixCalls a + mixCalls b := by
  simp [mixCalls]

theorem sleepCalls_append (a b : List Event) :
    sleepCalls (a ++ b) = sleepCalls a + sleepCalls b := by
  simp [sleepCalls]

theorem signalCalls_append (a b : List Event) :
    signalCalls (a ++ b) = signalCalls a + signalCalls b := by
  simp [signalCalls]

theorem unlockCalls_append (a b : List Event) :
    unlockCalls (a ++ b) = unlockCalls a + unlockCalls b := by
  simp [unlockCalls]

theorem chunkTrace_calls (frames n : Nat) :
    mixCalls (chunkTrace frames n) = n ∧ signalCalls (chunkTrace frames n) = n ∧
    unlockCalls (chunkTrace frames n) = n ∧ sleepCalls (chunkTrace frames n) = 0 := by
  induction n with
  | zero => simp [chunkTrace, mixCalls, signalCalls, unlockCalls, sleepCalls]
  | succ n ih =>
    obtain ⟨h1, h2, h3, h4⟩ := ih
    simp only [chunkTrace, mixCalls_append, signalCalls_append, unlockCalls_append,
      sleepCalls_append, h1, h2, h3, h4]
    simp [mixCalls, signalCalls, unlockCalls, sleepCalls]
    omega

/-- With `avail - done = N*U + r`, `0 <= r < U`, every lock granted and no
resize pending, lines 142-172 make
exactly `N` mix calls and `N` signals, advances the used-byte counter by
`N*U*frame_size` (in the arithmetic of the counter, whose width is `abits`)
and `done` by `N*U`, leaves `avail - done < U`, and sleeps exactly when
`N = 0`. -/
theorem paceFrom_publishes_due_chunks (abits : Nat) (env : Env) (dev : ALCdevice)
    (frame_sz restTime avail N r k : Nat) (s : MixState)
    (hU0 : 0 < dev.UpdateSize) (hab : abits ≤ 64) (havail : avail < 2 ^ 64)
    (hused : s.acon.abufused < 2 ^ abits)
    (hl : ∀ j, env.lock j = true) (hp : ∀ j, env.resize_pending j = false)
    (hle : s.done ≤ avail) (hd : avail - s.done = N * dev.UpdateSize + r)
    (hr : r < dev.UpdateSize) :
    ∃ s', paceFrom abits env dev frame_sz restTime avail (N + 1 + k) s = some s' ∧
      mixCalls s'.trace = mixCalls s.trace + N ∧
      signalCalls s'.trace = signalCalls s.trace + N ∧
      s'.acon.abufused = (s.acon.abufused + N * dev.UpdateSize * frame_sz) % 2 ^ abits ∧
      (s.acon.abufused + N * dev.UpdateSize * frame_sz < 2 ^ abits →
        s'.acon.abufused = s.acon.abufused + N * dev.UpdateSize * frame_sz) ∧
      s'.done = s.done + N * dev.UpdateSize ∧
      sub64 avail s'.done < dev.UpdateSize ∧
      sleepCalls s'.trace = sleepCalls s.trace + (if N = 0 then 1 else 0) := by
  have hclamp : clampDone dev avail s = s := by
    unfold clampDone
    rw [if_neg (by omega)]
  have hsub : sub64 avail s.done = N * dev.UpdateSize + r := by
    rw [sub64_of_le avail s.done hle havail, hd]
  unfold paceFrom
  rw [hclamp]
  unfold pace
  rcases Nat.eq_zero_or_pos N with hN | hN
  · subst hN
    rw [if_pos (by omega)]
    refine ⟨_, rfl, ?_, ?_, ?_, ?_, ?_, ?_, ?_⟩
    · simp [mixCalls]
    · simp [signalCalls]
    · simp [Nat.mod_eq_of_lt hused]
    · intro _
      simp
    · simp
    · simp only []
      omega
    · simp [sleepCalls]
  · have hge : ¬ sub64 avail s.done < dev.UpdateSize := by
      rw [hsub]
      have : dev.UpdateSize ≤ N * dev.UpdateSize := Nat.le_mul_of_pos_left _ hN
      omega
    rw [if_neg hge]
    obtain ⟨s', h1, h2, h3, h4, -⟩ :=
      drain_publishes abits env dev frame_sz avail hU0 hab havail hl hp N r k hr s
        (by omega) hused
    obtain ⟨c1, c2, -, c4⟩ := chunkTrace_calls dev.UpdateSize N
    have hassoc : N * dev.UpdateSize * frame_sz = N * (dev.UpdateSize * frame_sz) :=
      Nat.mul_assoc _ _ _
    refine ⟨s', h1, ?_, ?_, ?_, ?_, h2, ?_, ?_⟩
    · rw [h3, mixCalls_append, c1]
    · rw [h3, signalCalls_append, c2]
    · rw [h4, hassoc]
    · intro hno
      rw [h4, hassoc]
      rw [hassoc] at hno
      exact Nat.mod_eq_of_lt hno
    · rw [h2, sub64_of_le avail _ (by omega) havail]
      omega
    · rw [h3, sleepCalls_append, c4, if_neg (by omega)]

/-- A pass of the loop body whose clock read succeeds is lines 142-172 run on
the `avail` computed from that read. -/
theorem loopBody_of_clock (abits : Nat) (env : Env) (dev : ALCdevice) (e : LoopEntry)
    (fuel : Nat) (s s' : MixState) (now : timespec) (hclock : env.clock s.clocks = some now)
    (h : paceFrom abits env dev e.frame_sz e.restTime (availFrames e.start now dev.Frequency)
      fuel { s with clocks := s.clocks + 1, trace := s.trace ++ [Event.clock] } = some s') :
    loopBody abits env dev e fuel s = some (Pass.next s') := by
  unfold loopBody
  simp only [hclock, h]

/-- C2: for every `avail` with `avail - done = N*U + r`, `0 <= r < U`, with
every lock granted and no resize pending, the pass of the loop body after
the clock read makes exactly `N` mix calls and `N` signals, advances the
used-byte counter by `N*U*frame_size` (in the arithmetic of the counter,
whose width is `abits`; exactly when that does not wrap) and `done` by
`N*U`, leaves `avail - done < U`, and sleeps exactly when `N = 0`.  The pass
returns with any fuel above `N`, and it is the pass of `loopBody` whenever
the clock read gives this `avail`. -/
theorem pacing_publishes_due_chunks (abits : Nat) (env : Env) (dev : ALCdevice)
    (e : LoopEntry) (avail N r k : Nat) (s : MixState)
    (hU0 : 0 < dev.UpdateSize) (hab : abits ≤ 64) (havail : avail < 2 ^ 64)
    (hused : s.acon.abufused < 2 ^ abits)
    (hl : ∀ j, env.lock j = true) (hp : ∀ j, env.resize_pending j = false)
    (hle : s.done ≤ avail) (hd : avail - s.done = N * dev.UpdateSize + r)
    (hr : r < dev.UpdateSize) :
    ∃ s', paceFrom abits env dev e.frame_sz e.restTime avail (N + 1 + k)
        { s with clocks := s.clocks + 1, trace := s.trace ++ [Event.clock] } = some s' ∧
      (∀ now, env.clock s.clocks = some now → availFrames e.start now dev.Frequency = avail →
        loopBody abits env dev e (N + 1 + k) s = some (Pass.next s')) ∧
      mixCalls s'.trace = mixCalls s.trace + N ∧
      signalCalls s'.trace = signalCalls s.trace + N ∧
      s'.acon.abufused = (s.acon.abufused + N * dev.UpdateSize * e.frame_sz) % 2 ^ abits ∧
      (s.acon.abufused + N * dev.UpdateSize * e.frame_sz < 2 ^ abits →
        s'.acon.abufused = s.acon.abufused + N * dev.UpdateSize * e.frame_sz) ∧
      s'.done = s.done + N * dev.UpdateSize ∧
      sub64 avail s'.done < dev.UpdateSize ∧
      sleepCalls s'.trace = sleepCalls s.trace + (if N = 0 then 1 else 0) := by
  obtain ⟨s', h0, h1, h2, h3, h4, h5, h6, h7⟩ :=
    paceFrom_publishes_due_chunks abits env dev e.frame_sz e.restTime avail N r k
      { s with clocks := s.clocks + 1, trace := s.trace ++ [Event.clock] }
      hU0 hab havail hused hl hp hle hd hr
  refine ⟨s', h0, ?_, ?_, ?_, h3, h4, h5, h6, ?_⟩
  · intro now hclock hav
    exact loopBody_of_clock abits env dev e _ s s' now hclock (hav ▸ h0)
  · rw [h1, mixCalls_append]
    simp [mixCalls]
  · rw [h2, signalCalls_append]
    simp [signalCalls]
  · rw [h7, sleepCalls_append]
    simp [sleepCalls]

/-- C2 at the sample device: one second after the start 48000 frames are
due, 46 chunks of 1024 are published and 896 frames stay due. -/
theorem pacing_publishes_due_chunks_witness :
    ∃ s', loopBody 64 sampleEnv sampleDevice sampleEntry (46 + 1 + 0) sampleState
        = some (Pass.next s') ∧
      mixCalls s'.trace = mixCalls sampleState.trace + 46 ∧
      s'.acon.abufused = (sampleState.acon.abufused + 46 * 1024 * 4) % 2 ^ 64 ∧
      s'.done = sampleState.done + 46 * 1024 ∧
      sleepCalls s'.trace = sleepCalls sampleState.trace + (if 46 = 0 then 1 else 0) :=
  (pacing_publishes_due_chunks 64 sampleEnv sampleDevice sampleEntry 48000 46 896 0
    sampleState (by decide) (by decide) (by decide) (by decide) (fun _ => rfl) (fun _ => rfl)
    (by decide) (by decide) (by decide)).elim
    fun s' h => ⟨s', h.2.1 ⟨1, 0⟩ rfl (by decide), h.2.2.1, h.2.2.2.2.1, h.2.2.2.2.2.2.1,
      h.2.2.2.2.2.2.2.2⟩

/-- When the clock reads `avail < done`, lines 142-148 set `done` to
`avail - U` modulo `2^64`, and with the lock granted the drain that follows
publishes exactly one chunk and stops with `done = avail`. -/
theorem paceFrom_after_backward_clock (abits : Nat) (env : Env) (dev : ALCdevice)
    (frame_sz restTime avail k : Nat) (s : MixState)
    (hU0 : 0 < dev.UpdateSize) (hU : dev.UpdateSize < 2 ^ 32) (havail : avail < 2 ^ 64)
    (hback : avail < s.done)
    (hp : env.resize_pending s.reads = false) (hl : env.lock s.locks = true) :
    (clampDone dev avail s).done = (avail + 2 ^ 64 - dev.UpdateSize) % 2 ^ 64 ∧
    (avail < dev.UpdateSize →
      (clampDone dev avail s).done = avail + 2 ^ 64 - dev.UpdateSize) ∧
    ∃ s', paceFrom abits env dev frame_sz restTime avail (k + 2) s = some s' ∧
      s'.trace = s.trace ++
        [Event.lockOk, Event.mix dev.UpdateSize, Event.signal, Event.unlock] ∧
      mixCalls s'.trace = mixCalls s.trace + 1 ∧
      s'.done = avail ∧
      sub64 avail s'.done < dev.UpdateSize := by
  have hU64 : dev.UpdateSize < 2 ^ 64 := by omega
  have hcl : clampDone dev avail s = { s with done := sub64 avail dev.UpdateSize } := by
    unfold clampDone
    rw [if_pos hback]
  refine ⟨?_, ?_, ?_⟩
  · rw [hcl]
    simp only [sub64]
    omega
  · intro hlt
    rw [hcl]
    simp only [sub64]
    omega
  · obtain ⟨rd, hatt⟩ := drainAttempt_granted abits env dev frame_sz k
      { s with done := sub64 avail dev.UpdateSize } hp hl
    have hdue : sub64 avail (sub64 avail dev.UpdateSize) = dev.UpdateSize :=
      sub64_sub64_self avail dev.UpdateSize hU64
    have hfin : add64 (sub64 avail dev.UpdateSize) dev.UpdateSize = avail :=
      add64_sub64 avail dev.UpdateSize havail
    unfold paceFrom pace
    rw [hcl]
    simp only []
    rw [hdue, if_neg (Nat.lt_irrefl _), drain, if_pos (Nat.le_of_eq hdue.symm), hatt]
    simp only []
    rw [drain]
    simp only [publishChunk, hfin, sub64_self]
    rw [if_neg (by omega)]
    refine ⟨_, rfl, ?_, ?_, rfl, ?_⟩
    · simp
    · simp [mixCalls]
    · simp only [sub64_self]
      exact hU0

/-- C3: for every 64-bit `avail` and `done` with `avail < done` and every
chunk size `U > 0`, the loop sets `done` to `avail - U` modulo `2^64` (that
is `avail + 2^64 - U` when `avail < U`), and with no resize pending and the
lock granted the pass publishes exactly one chunk and leaves the drain with
`done = avail`; it is the pass of `loopBody` whenever the clock read gives
this `avail`. -/
theorem backward_clock_publishes_one_chunk (abits : Nat) (env : Env) (dev : ALCdevice)
    (e : LoopEntry) (avail k : Nat) (s : MixState)
    (hU0 : 0 < dev.UpdateSize) (hU : dev.UpdateSize < 2 ^ 32) (havail : avail < 2 ^ 64)
    (hback : avail < s.done)
    (hp : env.resize_pending s.reads = false) (hl : env.lock s.locks = true) :
    (clampDone dev avail s).done = (avail + 2 ^ 64 - dev.UpdateSize) % 2 ^ 64 ∧
    (avail < dev.UpdateSize →
      (clampDone dev avail s).done = avail + 2 ^ 64 - dev.UpdateSize) ∧
    ∃ s', paceFrom abits env dev e.frame_sz e.restTime avail (k + 2)
        { s with clocks := s.clocks + 1, trace := s.trace ++ [Event.clock] } = some s' ∧
      (∀ now, env.clock s.clocks = some now → availFrames e.start now dev.Frequency = avail →
        loopBody abits env dev e (k + 2) s = some (Pass.next s')) ∧
      s'.trace = s.trace ++
        [Event.clock, Event.lockOk, Event.mix dev.UpdateSize, Event.signal, Event.unlock] ∧
      mixCalls s'.trace = mixCalls s.trace + 1 ∧
      s'.done = avail ∧
      sub64 avail s'.done < dev.UpdateSize := by
  obtain ⟨-, -, s', h0, h1, h2, h3, h4⟩ :=
    paceFrom_after_backward_clock abits env dev e.frame_sz e.restTime avail k
      { s with clocks := s.clocks + 1, trace := s.trace ++ [Event.clock] }
      hU0 hU havail hback hp hl
  obtain ⟨g1, g2, -⟩ :=
    paceFrom_after_backward_clock abits env dev e.frame_sz e.restTime avail k s
      hU0 hU havail hback hp hl
  refine ⟨g1, g2, s', h0, ?_, ?_, ?_, h3, h4⟩
  · intro now hclock hav
    exact loopBody_of_clock abits env dev e _ s s' now hclock (hav ▸ h0)
  · rw [h1]
    simp
  · rw [h2, mixCalls_append]
    simp [mixCalls]

/-- C3 at the sample device with `done = 100000` and a clock that reads one
second, 48000 frames. -/
theorem backward_clock_publishes_one_chunk_witness :
    (clampDone sampleDevice 48000 { sampleState with done := 100000 }).done = 46976 ∧
    ∃ s', loopBody 64 sampleEnv sampleDevice sampleEntry (0 + 2)
        { sampleState with done := 100000 } = some (Pass.next s') ∧
      mixCalls s'.trace = mixCalls sampleState.trace + 1 ∧ s'.done = 48000 :=
  have h := backward_clock_publishes_one_chunk 64 sampleEnv sampleDevice sampleEntry 48000 0
    { sampleState with done := 100000 } (by decide) (by decide) (by decide) (by decide) rfl rfl
  ⟨h.1.trans (by decide), h.2.2.elim fun s' hs =>
    ⟨s', hs.2.1 ⟨1, 0⟩ rfl (by decide), hs.2.2.2.1, hs.2.2.2.2.1⟩⟩

/-! ## A refused lock -/

theorem spinResize_frame (env : Env) (fuel : Nat) (s s1 : MixState)
    (h : spinResize env fuel s = some s1) :
    s1.done = s.done ∧ s1.acon = s.acon ∧ s1.locks = s.locks ∧
    mixCalls s1.trace = mixCalls s.trace ∧ signalCalls s1.trace = signalCalls s.trace ∧
    unlockCalls s1.trace = unlockCalls s.trace := by
  induction fuel generalizing s with
  | zero => simp [spinResize] at h
  | succ n ih =>
    rw [spinResize] at h
    by_cases hp : env.resize_pending s.reads = true
    · rw [if_pos hp] at h
      obtain ⟨h1, h2, h3, h4, h5, h6⟩ := ih _ h
      refine ⟨h1, h2, h3, ?_, ?_, ?_⟩
      · rw [h4, mixCalls_append]
        simp [mixCalls]
      · rw [h5, signalCalls_append]
        simp [signalCalls]
      · rw [h6, unlockCalls_append]
        simp [unlockCalls]
    · rw [if_neg hp] at h
      cases h
      exact ⟨rfl, rfl, rfl, rfl, rfl, rfl⟩

/-- What a lock attempt that is refused leaves behind. -/
theorem drainAttempt_refused (abits : Nat) (env : Env) (dev : ALCdevice) (frame_sz fuel : Nat)
    (s s2 : MixState) (hfail : env.lock s.locks = false)
    (hatt : drainAttempt abits env dev frame_sz fuel s = some s2) :
    s2.done = s.done ∧ s2.acon = s.acon ∧ s2.locks = s.locks + 1 ∧
    mixCalls s2.trace = mixCalls s.trace ∧ signalCalls s2.trace = signalCalls s.trace ∧
    unlockCalls s2.trace = unlockCalls s.trace := by
  unfold drainAttempt at hatt
  have key : ∀ s1 : MixState, s1.done = s.done → s1.acon = s.acon → s1.locks = s.locks →
      mixCalls s1.trace = mixCalls s.trace → signalCalls s1.trace = signalCalls s.trace →
      unlockCalls s1.trace = unlockCalls s.trace →
      (if env.lock s1.locks = true then
        some (publishChunk abits dev frame_sz
          { s1 with locks := s1.locks + 1, trace := s1.trace ++ [Event.lockOk] })
      else some { s1 with locks := s1.locks + 1, trace := s1.trace ++ [Event.lockFail] })
        = some s2 →
      s2.done = s.done ∧ s2.acon = s.acon ∧ s2.locks = s.locks + 1 ∧
      mixCalls s2.trace = mixCalls s.trace ∧ signalCalls s2.trace = signalCalls s.trace ∧
      unlockCalls s2.trace = unlockCalls s.trace := by
    intro s1 h1 h2 h3 h4 h5 h6 h
    rw [h3, hfail] at h
    simp only [Bool.false_eq_true, if_false, Option.some.injEq] at h
    subst h
    refine ⟨h1, h2, by simp [h3], ?_, ?_, ?_⟩
    · simp only [mixCalls_append, h4]
      simp [mixCalls]
    · simp only [signalCalls_append, h5]
      simp [signalCalls]
    · simp only [unlockCalls_append, h6]
      simp [unlockCalls]
  by_cases hu : s.acon.user = some sideChannelMagic
  · rw [if_pos hu] at hatt
    cases hsp : spinResize env fuel s with
    | none => simp [hsp] at hatt
    | some s1 =>
      rw [hsp] at hatt
      obtain ⟨h1, h2, h3, h4, h5, h6⟩ := spinResize_frame env fuel s s1 hsp
      exact key s1 h1 h2 h3 h4 h5 h6 hatt
  · rw [if_neg hu] at hatt
    exact key s rfl rfl rfl rfl rfl rfl hatt

/-- While the lock stays refused the drain loop does not return. -/
theorem drain_stays_while_refused (abits : Nat) (env : Env) (dev : ALCdevice)
    (frame_sz avail : Nat) (n : Nat) (s : MixState)
    (hdue : sub64 avail s.done ≥ dev.UpdateSize)
    (hnever : ∀ j, s.locks ≤ j → env.lock j = false) :
    drain abits env dev frame_sz avail n s = none := by
  induction n generalizing s with
  | zero => rfl
  | succ n ih =>
    rw [drain, if_pos hdue]
    cases hatt : drainAttempt abits env dev frame_sz n s with
    | none => rfl
    | some s1 =>
      obtain ⟨h1, -, h3, -⟩ :=
        drainAttempt_refused abits env dev frame_sz n s s1 (hnever _ (Nat.le_refl _)) hatt
      simp only []
      exact ih s1 (by rw [h1]; exact hdue) (fun j hj => hnever j (by omega))

/-- C8 as stated fails: with one chunk due and a lock refused three times,
the refused attempt leaves `done` at 0 with the chunk still due, and the same
drain goes on to attempt that chunk three more times and publishes it at the
fourth attempt; with a lock that is never granted it does not return at
all. -/
theorem refused_lock_does_not_skip_chunk :
    busyEnv.lock sampleState.locks = false ∧
    drainAttempt 64 busyEnv sampleDevice 4 10 sampleState =
      some { sampleState with locks := 1, trace := [Event.lockFail] } ∧
    sub64 1024 sampleState.done ≥ sampleDevice.UpdateSize ∧
    (drain 64 busyEnv sampleDevice 4 1024 10 sampleState).map (fun t => (t.done, t.trace)) =
      some (1024, [Event.lockFail, Event.lockFail, Event.lockFail, Event.lockOk,
        Event.mix 1024, Event.signal, Event.unlock]) ∧
    drain 64 { sampleEnv with lock := fun _ => false } sampleDevice 4 1024 40 sampleState
      = none := by
  decide

/-- The wait on the side channel returns once the flag reads clear, given
fuel for the reads before that. -/
theorem spinResize_returns (env : Env) (m fuel : Nat) (s : MixState)
    (hclear : env.resize_pending (s.reads + m) = false) (hm : m < fuel) :
    ∃ s1, spinResize env fuel s = some s1 := by
  induction m generalizing s fuel with
  | zero =>
    obtain ⟨f, rfl⟩ : ∃ f, fuel = f + 1 := ⟨fuel - 1, by omega⟩
    exact ⟨_, spinResize_clear env f s hclear⟩
  | succ m ih =>
    obtain ⟨f, rfl⟩ : ∃ f, fuel = f + 1 := ⟨fuel - 1, by omega⟩
    rw [spinResize]
    by_cases hp : env.resize_pending s.reads = true
    · rw [if_pos hp]
      apply ih
      · have : s.reads + 1 + m = s.reads + (m + 1) := by omega
        simp only [this, hclear]
      · omega
    · rw [if_neg hp]
      exact ⟨_, rfl⟩

/-- A lock attempt is reached, and returns, once the flag reads clear. -/
theorem drainAttempt_returns (abits : Nat) (env : Env) (dev : ALCdevice)
    (frame_sz m fuel : Nat) (s : MixState)
    (hclear : s.acon.user ≠ some sideChannelMagic ∨ env.resize_pending (s.reads + m) = false)
    (hm : m < fuel) :
    ∃ s2, drainAttempt abits env dev frame_sz fuel s = some s2 := by
  unfold drainAttempt
  by_cases hu : s.acon.user = some sideChannelMagic
  · obtain ⟨s1, h1⟩ :=
      spinResize_returns env m fuel s (hclear.resolve_left (fun h => h hu)) hm
    rw [if_pos hu, h1]
    simp only []
    split <;> exact ⟨_, rfl⟩
  · rw [if_neg hu]
    simp only []
    split <;> exact ⟨_, rfl⟩

/-- C8, amended: in a state of the drain loop in which the lock attempt is
refused (there being no side channel, or the resize-pending flag reading
clear after `m` yields), the attempt returns having made no mix, no signal
and no unlock, with the connection (the used-byte counter included) and
`done` unchanged; the chunk stays due, the drain loop goes on with another
attempt at the same chunk, and as long as the lock is refused it does not
return. -/
theorem refused_lock_retries_chunk (abits : Nat) (env : Env) (dev : ALCdevice)
    (frame_sz avail m fuel : Nat) (s : MixState)
    (hdue : sub64 avail s.done ≥ dev.UpdateSize)
    (hclear : s.acon.user ≠ some sideChannelMagic ∨ env.resize_pending (s.reads + m) = false)
    (hm : m < fuel) (hfail : env.lock s.locks = false) :
    ∃ s2, drainAttempt abits env dev frame_sz fuel s = some s2 ∧
      mixCalls s2.trace = mixCalls s.trace ∧
      signalCalls s2.trace = signalCalls s.trace ∧
      unlockCalls s2.trace = unlockCalls s.trace ∧
      s2.acon = s.acon ∧
      s2.done = s.done ∧
      s2.locks = s.locks + 1 ∧
      sub64 avail s2.done ≥ dev.UpdateSize ∧
      drain abits env dev frame_sz avail (fuel + 1) s =
        drain abits env dev frame_sz avail fuel s2 ∧
      ((∀ j, s.locks ≤ j → env.lock j = false) →
        ∀ n, drain abits env dev frame_sz avail n s = none) := by
  obtain ⟨s2, hatt⟩ := drainAttempt_returns abits env dev frame_sz m fuel s hclear hm
  obtain ⟨h1, h2, h3, h4, h5, h6⟩ :=
    drainAttempt_refused abits env dev frame_sz fuel s s2 hfail hatt
  refine ⟨s2, hatt, h4, h5, h6, h2, h1, h3, by rw [h1]; exact hdue, ?_, ?_⟩
  · rw [drain, if_pos hdue, hatt]
  · intro hnever n
    exact drain_stays_while_refused abits env dev frame_sz avail n s hdue hnever

/-- C8, amended, at the sample device with a lock refused three times. -/
theorem refused_lock_retries_chunk_witness :
    ∃ s2, drainAttempt 64 busyEnv sampleDevice 4 10 sampleState = some s2 ∧
      mixCalls s2.trace = mixCalls sampleState.trace ∧
      s2.done = sampleState.done ∧
      drain 64 busyEnv sampleDevice 4 1024 (10 + 1) sampleState =
        drain 64 busyEnv sampleDevice 4 1024 10 s2 :=
  (refused_lock_retries_chunk 64 busyEnv sampleDevice 4 1024 0 10 sampleState
    (by decide) (Or.inr rfl) (by decide) (by decide)).elim
    fun s2 h => ⟨s2, h.1, h.2.1, h.2.2.2.2.2.1, h.2.2.2.2.2.2.2.2.1⟩

/-! ## Lock discipline of the task -/

/-- The invariant behind the lock discipline: the lock is held exactly inside
the two critical sections, and the granted locks are the unlocks plus the
one lock being held. -/
theorem step_keeps_lock_invariant (FrameSizeFromDevFmt : Nat → Nat → Nat) (abits : Nat)
    (dev : ALCdevice) (i : Input) (s t : Task)
    (hinv : s.held = s.pc.critical ∧ s.lockOks = s.unlocks + (if s.held then 1 else 0))
    (h : step FrameSizeFromDevFmt abits dev i s = some t) :
    t.held = t.pc.critical ∧ t.lockOks = t.unlocks + (if t.held then 1 else 0) := by
  obtain ⟨h1, h2⟩ := hinv
  unfold step at h
  split at h <;> rename_i hpc <;> rw [hpc] at h1 <;> simp only [PC.critical] at h1 <;>
    rw [h1] at h2 <;> (try split at h) <;>
    first
    | (cases h; simp [PC.critical, h1]; omega)
    | (cases h; simp [PC.critical, h1, h2])
    | (cases h)

theorem reachable_of_runTask (FrameSizeFromDevFmt : Nat → Nat → Nat) (abits : Nat)
    (dev : ALCdevice) (n : Nat) (ins : Nat → Input) (s t : Task)
    (hs : Reachable FrameSizeFromDevFmt abits dev s)
    (h : runTask FrameSizeFromDevFmt abits dev ins n s = some t) :
    Reachable FrameSizeFromDevFmt abits dev t := by
  induction n generalizing s ins with
  | zero =>
    simp only [runTask, Option.some.injEq] at h
    exact h ▸ hs
  | succ n ih =>
    rw [runTask] at h
    cases hst : step FrameSizeFromDevFmt abits dev (ins 0) s with
    | none => simp [hst] at h
    | some u =>
      rw [hst] at h
      exact ih _ u (Reachable.next s u hs ⟨ins 0, hst⟩) h

theorem reachable_lock_invariant (FrameSizeFromDevFmt : Nat → Nat → Nat) (abits : Nat)
    (dev : ALCdevice) (s : Task) (h : Reachable FrameSizeFromDevFmt abits dev s) :
    s.held = s.pc.critical ∧ s.lockOks = s.unlocks + (if s.held then 1 else 0) := by
  induction h with
  | start s hi =>
    obtain ⟨h1, h2, h3, h4, -⟩ := hi
    simp [h1, h2, h3, h4, PC.critical]
  | next s t _ hst ih =>
    obtain ⟨i, hi⟩ := hst
    exact step_keeps_lock_invariant FrameSizeFromDevFmt abits dev i s t ih hi

/-- Inside a critical section the task reaches the unlock that ends it in at
most four statements, whatever the outside world answers, holding the lock
until then, unlocking once and mixing at most one chunk. -/
theorem critical_section_ends (FrameSizeFromDevFmt : Nat → Nat → Nat) (abits : Nat)
    (dev : ALCdevice) (ins : Nat → Input) (s : Task) (hh : s.held = true)
    (hc : s.pc.critical = true) :
    ∃ t, runTask FrameSizeFromDevFmt abits dev ins s.pc.toUnlock s = some t ∧
      t.held = false ∧ t.unlocks = s.unlocks + 1 ∧ t.lockOks = s.lockOks ∧
      t.mixes ≤ s.mixes + 1 ∧
      ∀ m, m < s.pc.toUnlock →
        ∃ u, runTask FrameSizeFromDevFmt abits dev ins m s = some u ∧
          u.held = true ∧ u.unlocks = s.unlocks := by
  cases hpc : s.pc <;> rw [hpc] at hc <;> simp only [PC.critical] at hc <;>
    first
    | exact absurd hc (by decide)
    | (simp only [PC.toUnlock, runTask, step, hpc]
       refine ⟨_, rfl, rfl, rfl, rfl, by simp, ?_⟩
       intro m hm
       interval_cases m <;> simp [runTask, step, hpc, hh])

/-- The lock changes hands only at the lock and unlock statements. -/
theorem step_lock_changes (FrameSizeFromDevFmt : Nat → Nat → Nat) (abits : Nat)
    (dev : ALCdevice) (i : Input) (s t : Task)
    (h : step FrameSizeFromDevFmt abits dev i s = some t) :
    (s.held = false → t.held = true →
      (s.pc = PC.lockNegotiate ∨ s.pc = PC.lockPublish) ∧ i.lock = true) ∧
    (s.held = true → t.held = false →
      s.pc = PC.unlockNegotiate ∨ s.pc = PC.unlockPublish) := by
  unfold step at h
  split at h <;> rename_i hpc <;> (try split at h) <;>
    first
    | (cases h; simp_all)
    | (cases h)

/-- C9: in every reachable state of the mixer task, the lock is not held
where the task sleeps, yields on or reads the resize-pending flag, reads the
clock or has exited; it is held exactly inside buffer negotiation and the
publish of one chunk; the granted locks are the unlocks plus the lock being
held; a held lock is released by exactly one unlock within four statements,
after at most one mix, whatever the outside world answers; and the lock is
taken only by a granted lock statement and given up only by an unlock
statement. -/
theorem lock_discipline (FrameSizeFromDevFmt : Nat → Nat → Nat) (abits : Nat)
    (dev : ALCdevice) (s : Task) (h : Reachable FrameSizeFromDevFmt abits dev s) :
    (s.pc.waiting = true → s.held = false) ∧
    (s.held = true ↔ s.pc.critical = true) ∧
    s.lockOks = s.unlocks + (if s.held then 1 else 0) ∧
    (s.held = true → ∀ ins : Nat → Input,
      ∃ t, runTask FrameSizeFromDevFmt abits dev ins s.pc.toUnlock s = some t ∧
        s.pc.toUnlock ≤ 4 ∧
        t.held = false ∧ t.unlocks = s.unlocks + 1 ∧ t.lockOks = s.lockOks ∧
        t.mixes ≤ s.mixes + 1 ∧
        ∀ m, m < s.pc.toUnlock →
          ∃ u, runTask FrameSizeFromDevFmt abits dev ins m s = some u ∧
            u.held = true ∧ u.unlocks = s.unlocks) ∧
    (∀ (i : Input) (t : Task), step FrameSizeFromDevFmt abits dev i s = some t →
      (s.held = false → t.held = true →
        (s.pc = PC.lockNegotiate ∨ s.pc = PC.lockPublish) ∧ i.lock = true) ∧
      (s.held = true → t.held = false →
        s.pc = PC.unlockNegotiate ∨ s.pc = PC.unlockPublish)) := by
  obtain ⟨h1, h2⟩ := reachable_lock_invariant FrameSizeFromDevFmt abits dev s h
  refine ⟨?_, ?_, h2, ?_, ?_⟩
  · intro hw
    rw [h1]
    cases hpc : s.pc <;> rw [hpc] at hw <;> simp [PC.waiting] at hw <;> rfl
  · rw [h1]
  · intro hh ins
    obtain ⟨t, ht, r1, r2, r3, r4, r5⟩ :=
      critical_section_ends FrameSizeFromDevFmt abits dev ins s hh (h1 ▸ hh)
    refine ⟨t, ht, ?_, r1, r2, r3, r4, r5⟩
    cases s.pc <;> simp [PC.toUnlock]
  · intro i t hst
    exact step_lock_changes FrameSizeFromDevFmt abits dev i s t hst

/-- C9 at the sample task four statements after its start, negotiating the
buffer under the lock. -/
theorem lock_discipline_witness :
    Reachable sampleFrameSize 64 sampleDevice negotiatingTask ∧
    negotiatingTask.held = true ∧
    negotiatingTask.lockOks = negotiatingTask.unlocks + 1 ∧
    ∃ t, runTask sampleFrameSize 64 sampleDevice (fun _ => sampleInput) 2 negotiatingTask
        = some t ∧ t.held = false ∧ t.unlocks = negotiatingTask.unlocks + 1 :=
  have hr : Reachable sampleFrameSize 64 sampleDevice negotiatingTask :=
    reachable_of_runTask sampleFrameSize 64 sampleDevice 4 (fun _ => sampleInput)
      sampleTask negotiatingTask (Reachable.start sampleTask ⟨rfl, rfl, rfl, rfl, rfl⟩)
      (by decide)
  have h := lock_discipline sampleFrameSize 64 sampleDevice negotiatingTask hr
  ⟨hr, rfl, h.2.2.1, (h.2.2.2.1 rfl (fun _ => sampleInput)).elim
    fun t ht => ⟨t, ht.1, ht.2.2.1, ht.2.2.2.1⟩⟩

/-! ## The functions against the step relation -/

theorem stepStar_of_runTask (FrameSizeFromDevFmt : Nat → Nat → Nat) (abits : Nat)
    (dev : ALCdevice) (n : Nat) (ins : Nat → Input) (s t : Task)
    (h : runTask FrameSizeFromDevFmt abits dev ins n s = some t) :
    StepStar FrameSizeFromDevFmt abits dev s t := by
  induction n generalizing s ins with
  | zero =>
    simp only [runTask, Option.some.injEq] at h
    exact h ▸ Relation.ReflTransGen.refl
  | succ n ih =>
    rw [runTask] at h
    cases hst : step FrameSizeFromDevFmt abits dev (ins 0) s with
    | none => simp [hst] at h
    | some u =>
      rw [hst] at h
      exact Relation.ReflTransGen.head ⟨ins 0, hst⟩ (ih _ u h)

theorem lockCalls_append (a b : List Event) : lockCalls (a ++ b) = lockCalls a + lockCalls b := by
  simp [lockCalls]

/-- The wait on the side channel, statement by statement. -/
theorem spinResize_steps (FrameSizeFromDevFmt : Nat → Nat → Nat) (abits : Nat)
    (dev : ALCdevice) (env : Env) (fuel : Nat) (s s1 : MixState) (t : Task)
    (h : spinResize env fuel s = some s1) (hpc : t.pc = PC.readPending) :
    StepStar FrameSizeFromDevFmt abits dev t { t with pc := PC.lockPublish } := by
  induction fuel generalizing s t with
  | zero => simp [spinResize] at h
  | succ n ih =>
    rw [spinResize] at h
    by_cases hp : env.resize_pending s.reads = true
    · rw [if_pos hp] at h
      have h2 : StepStar FrameSizeFromDevFmt abits dev t { t with pc := PC.readPending } :=
        stepStar_of_runTask FrameSizeFromDevFmt abits dev 2
          (fun _ => env.answer s.clocks s.locks s.reads s.tests) t _
          (by simp [runTask, step, hpc, Env.answer, hp])
      exact Relation.ReflTransGen.trans h2 (ih _ { t with pc := PC.readPending } h rfl)
    · rw [if_neg hp] at h
      exact stepStar_of_runTask FrameSizeFromDevFmt abits dev 1
        (fun _ => env.answer s.clocks s.locks s.reads s.tests) t _
        (by simp [runTask, step, hpc, Env.answer, hp])

theorem spinResize_lockCalls (env : Env) (fuel : Nat) (s s1 : MixState)
    (h : spinResize env fuel s = some s1) : lockCalls s1.trace = lockCalls s.trace := by
  induction fuel generalizing s with
  | zero => simp [spinResize] at h
  | succ n ih =>
    rw [spinResize] at h
    by_cases hp : env.resize_pending s.reads = true
    · rw [if_pos hp] at h
      rw [ih _ h, lockCalls_append]
      simp [lockCalls]
    · rw [if_neg hp] at h
      cases h
      rfl

/-- The lock attempt and the publish, statement by statement. -/
theorem lockPublish_steps (FrameSizeFromDevFmt : Nat → Nat → Nat) (abits : Nat)
    (dev : ALCdevice) (env : Env) (e : LoopEntry) (s1 s2 : MixState) (t1 : Task)
    (h : (if env.lock s1.locks = true then
        some (publishChunk abits dev e.frame_sz
          { s1 with locks := s1.locks + 1, trace := s1.trace ++ [Event.lockOk] })
      else some { s1 with locks := s1.locks + 1, trace := s1.trace ++ [Event.lockFail] })
        = some s2)
    (ha : t1.agrees e s1) (hpc : t1.pc = PC.lockPublish) :
    ∃ t2, StepStar FrameSizeFromDevFmt abits dev t1 t2 ∧ t2.pc = PC.drainTest ∧
      t2.agrees e s2 ∧ t2.avail = t1.avail := by
  obtain ⟨a1, a2, a3, a4, a5, a6, a7, a8, a9⟩ := ha
  by_cases hl : env.lock s1.locks = true
  · rw [if_pos hl] at h
    cases h
    refine ⟨{ t1 with
        pc := PC.drainTest, held := false
        acon := { t1.acon with
          abufused := (t1.acon.abufused + mul64 dev.UpdateSize t1.frame_sz) % 2 ^ abits }
        done := add64 t1.done dev.UpdateSize
        lockOks := t1.lockOks + 1, unlocks := t1.unlocks + 1, mixes := t1.mixes + 1 },
      stepStar_of_runTask FrameSizeFromDevFmt abits dev 5
        (fun _ => env.answer s1.clocks s1.locks s1.reads s1.tests) t1 _
        (by simp only [runTask, step, hpc, Env.answer, hl, if_true]), rfl, ?_, rfl⟩
    refine ⟨rfl, ?_, ?_, a4, a5, a6, ?_, ?_, ?_⟩
    · simp only [publishChunk, a2, a5]
    · simp only [publishChunk, a3]
    · simp only [publishChunk, a7, lockCalls_append]
      simp [lockCalls]
    · simp only [publishChunk, a8, unlockCalls_append]
      simp [unlockCalls]
    · simp only [publishChunk, a9, mixCalls_append]
      simp [mixCalls]
  · rw [if_neg hl] at h
    cases h
    refine ⟨{ t1 with pc := PC.drainTest },
      stepStar_of_runTask FrameSizeFromDevFmt abits dev 1
        (fun _ => env.answer s1.clocks s1.locks s1.reads s1.tests) t1 _
        (by simp [runTask, step, hpc, Env.answer, hl]), rfl, ?_, rfl⟩
    refine ⟨a1, a2, a3, a4, a5, a6, ?_, ?_, ?_⟩
    · simp only [a7, lockCalls_append]
      simp [lockCalls]
    · simp only [a8, unlockCalls_append]
      simp [unlockCalls]
    · simp only [a9, mixCalls_append]
      simp [mixCalls]

/-- One pass of the drain loop body, statement by statement. -/
theorem drainAttempt_steps (FrameSizeFromDevFmt : Nat → Nat → Nat) (abits : Nat)
    (dev : ALCdevice) (env : Env) (e : LoopEntry) (fuel : Nat) (s s2 : MixState) (t : Task)
    (h : drainAttempt abits env dev e.frame_sz fuel s = some s2)
    (ha : t.agrees e s) (hpc : t.pc = PC.sideChannel) :
    ∃ t2, StepStar FrameSizeFromDevFmt abits dev t t2 ∧ t2.pc = PC.drainTest ∧
      t2.agrees e s2 ∧ t2.avail = t.avail := by
  unfold drainAttempt at h
  have hacon : t.acon = s.acon := ha.2.1
  by_cases hu : s.acon.user = some sideChannelMagic
  · rw [if_pos hu] at h
    cases hsp : spinResize env fuel s with
    | none => simp [hsp] at h
    | some s1 =>
      rw [hsp] at h
      simp only [] at h
      obtain ⟨f1, f2, -, f4, -, f6⟩ := spinResize_frame env fuel s s1 hsp
      have f7 := spinResize_lockCalls env fuel s s1 hsp
      have hfirst : StepStar FrameSizeFromDevFmt abits dev t { t with pc := PC.readPending } :=
        stepStar_of_runTask FrameSizeFromDevFmt abits dev 1
          (fun _ => env.answer s.clocks s.locks s.reads s.tests) t _
          (by simp [runTask, step, hpc, hacon, hu])
      have hspin := spinResize_steps FrameSizeFromDevFmt abits dev env fuel s s1
        { t with pc := PC.readPending } hsp rfl
      obtain ⟨a1, a2, a3, a4, a5, a6, a7, a8, a9⟩ := ha
      obtain ⟨t2, k1, k2, k3, k4⟩ := lockPublish_steps FrameSizeFromDevFmt abits dev env e s1 s2
        { t with pc := PC.lockPublish } h
        ⟨a1, a2.trans f2.symm, a3.trans f1.symm, a4, a5, a6, a7.trans f7.symm,
          a8.trans f6.symm, a9.trans f4.symm⟩ rfl
      exact ⟨t2, Relation.ReflTransGen.trans hfirst (Relation.ReflTransGen.trans hspin k1),
        k2, k3, k4⟩
  · rw [if_neg hu] at h
    simp only [] at h
    have hfirst : StepStar FrameSizeFromDevFmt abits dev t { t with pc := PC.lockPublish } :=
      stepStar_of_runTask FrameSizeFromDevFmt abits dev 1
        (fun _ => env.answer s.clocks s.locks s.reads s.tests) t _
        (by simp [runTask, step, hpc, hacon, hu])
    obtain ⟨t2, k1, k2, k3, k4⟩ := lockPublish_steps FrameSizeFromDevFmt abits dev env e s s2
      { t with pc := PC.lockPublish } h ha rfl
    exact ⟨t2, Relation.ReflTransGen.trans hfirst k1, k2, k3, k4⟩

/-- The drain loop, statement by statement. -/
theorem drain_steps (FrameSizeFromDevFmt : Nat → Nat → Nat) (abits : Nat)
    (dev : ALCdevice) (env : Env) (e : LoopEntry) (fuel : Nat) (s s' : MixState) (t : Task)
    (h : drain abits env dev e.frame_sz t.avail fuel s = some s')
    (ha : t.agrees e s) (hpc : t.pc = PC.drainTest) :
    ∃ t', StepStar FrameSizeFromDevFmt abits dev t t' ∧ t'.pc = PC.loopTest ∧
      t'.agrees e s' := by
  induction fuel generalizing s t with
  | zero => simp [drain] at h
  | succ n ih =>
    rw [drain] at h
    have hdone : t.done = s.done := ha.2.2.1
    by_cases hdue : sub64 t.avail s.done ≥ dev.UpdateSize
    · rw [if_pos hdue] at h
      cases hatt : drainAttempt abits env dev e.frame_sz n s with
      | none => simp [hatt] at h
      | some s1 =>
        rw [hatt] at h
        simp only [] at h
        have hfirst : StepStar FrameSizeFromDevFmt abits dev t { t with pc := PC.sideChannel } :=
          stepStar_of_runTask FrameSizeFromDevFmt abits dev 1
            (fun _ => env.answer s.clocks s.locks s.reads s.tests) t _
            (by simp [runTask, step, hpc, hdone, hdue])
        obtain ⟨t2, k1, k2, k3, k4⟩ := drainAttempt_steps FrameSizeFromDevFmt abits dev env e
          n s s1 { t with pc := PC.sideChannel } hatt ha rfl
        obtain ⟨t', m1, m2, m3⟩ := ih s1 t2 (by rw [k4]; exact h) k3 k2
        exact ⟨t', Relation.ReflTransGen.trans hfirst (Relation.ReflTransGen.trans k1 m1),
          m2, m3⟩
    · rw [if_neg hdue] at h
      cases h
      exact ⟨{ t with pc := PC.loopTest },
        stepStar_of_runTask FrameSizeFromDevFmt abits dev 1
          (fun _ => env.answer 0 0 0 0) t _
          (by simp [runTask, step, hpc, hdone, hdue]), rfl, ha⟩

theorem agrees_of_trace (t : Task) (e : LoopEntry) (s s1 : MixState) (ha : t.agrees e s)
    (hacon : s1.acon = s.acon) (hdone : s1.done = s.done)
    (h1 : lockCalls s1.trace = lockCalls s.trace)
    (h2 : unlockCalls s1.trace = unlockCalls s.trace)
    (h3 : mixCalls s1.trace = mixCalls s.trace) : t.agrees e s1 := by
  obtain ⟨a1, a2, a3, a4, a5, a6, a7, a8, a9⟩ := ha
  exact ⟨a1, a2.trans hacon.symm, a3.trans hdone.symm, a4, a5, a6, a7.trans h1.symm,
    a8.trans h2.symm, a9.trans h3.symm⟩

/-- Lines 150-172, statement by statement. -/
theorem pace_steps (FrameSizeFromDevFmt : Nat → Nat → Nat) (abits : Nat)
    (dev : ALCdevice) (env : Env) (e : LoopEntry) (fuel : Nat) (s s' : MixState) (t : Task)
    (h : pace abits env dev e.frame_sz e.restTime t.avail fuel s = some s')
    (ha : t.agrees e s) (hpc : t.pc = PC.paceTest) :
    ∃ t', StepStar FrameSizeFromDevFmt abits dev t t' ∧ t'.pc = PC.loopTest ∧
      t'.agrees e s' := by
  unfold pace at h
  have hdone : t.done = s.done := ha.2.2.1
  by_cases hlt : sub64 t.avail s.done < dev.UpdateSize
  · rw [if_pos hlt] at h
    cases h
    refine ⟨{ t with pc := PC.loopTest },
      stepStar_of_runTask FrameSizeFromDevFmt abits dev 2
        (fun _ => env.answer 0 0 0 0) t _
        (by simp [runTask, step, hpc, hdone, hlt]), rfl, ?_⟩
    refine agrees_of_trace _ e s _ ha rfl rfl ?_ ?_ ?_
    · simp [lockCalls]
    · simp [unlockCalls]
    · simp [mixCalls]
  · rw [if_neg hlt] at h
    have hfirst : StepStar FrameSizeFromDevFmt abits dev t { t with pc := PC.drainTest } :=
      stepStar_of_runTask FrameSizeFromDevFmt abits dev 1
        (fun _ => env.answer 0 0 0 0) t _
        (by simp [runTask, step, hpc, hdone, hlt])
    obtain ⟨t', k1, k2, k3⟩ := drain_steps FrameSizeFromDevFmt abits dev env e fuel s s'
      { t with pc := PC.drainTest } h ha rfl
    exact ⟨t', Relation.ReflTransGen.trans hfirst k1, k2, k3⟩

/-- One pass of the loop body, statement by statement. -/
theorem loopBody_steps (FrameSizeFromDevFmt : Nat → Nat → Nat) (abits : Nat)
    (dev : ALCdevice) (env : Env) (e : LoopEntry) (fuel : Nat) (s : MixState) (p : Pass)
    (t : Task) (h : loopBody abits env dev e fuel s = some p)
    (ha : t.agrees e s) (hpc : t.pc = PC.readClock) :
    ∃ t', StepStar FrameSizeFromDevFmt abits dev t t' ∧
      ((∃ s', p = Pass.next s' ∧ t'.pc = PC.loopTest ∧ t'.agrees e s') ∨
       (∃ status s', p = Pass.exited status s' ∧ t'.pc = PC.exited status)) := by
  unfold loopBody at h
  cases hc : env.clock s.clocks with
  | none =>
    rw [hc] at h
    simp only [Option.some.injEq] at h
    exact ⟨{ t with pc := PC.exited 1 },
      stepStar_of_runTask FrameSizeFromDevFmt abits dev 1
        (fun _ => env.answer s.clocks s.locks s.reads s.tests) t _
        (by simp [runTask, step, hpc, Env.answer, hc]), Or.inr ⟨1, _, h.symm, rfl⟩⟩
  | some now =>
    rw [hc] at h
    simp only [] at h
    obtain ⟨a1, a2, a3, a4, a5, a6, a7, a8, a9⟩ := ha
    cases hp : paceFrom abits env dev e.frame_sz e.restTime
        (availFrames e.start now dev.Frequency) fuel
        { s with clocks := s.clocks + 1, trace := s.trace ++ [Event.clock] } with
    | none => simp [hp] at h
    | some s2 =>
      rw [hp] at h
      simp only [Option.some.injEq] at h
      have hfirst : StepStar FrameSizeFromDevFmt abits dev t
          { t with
            avail := availFrames e.start now dev.Frequency
            done := if availFrames e.start now dev.Frequency < t.done then
                sub64 (availFrames e.start now dev.Frequency) dev.UpdateSize
              else t.done
            pc := PC.paceTest } :=
        stepStar_of_runTask FrameSizeFromDevFmt abits dev 1
          (fun _ => env.answer s.clocks s.locks s.reads s.tests) t _
          (by simp [runTask, step, hpc, Env.answer, hc, a4])
      unfold paceFrom at hp
      obtain ⟨t', k1, k2, k3⟩ := pace_steps FrameSizeFromDevFmt abits dev env e fuel
        (clampDone dev (availFrames e.start now dev.Frequency)
          { s with clocks := s.clocks + 1, trace := s.trace ++ [Event.clock] }) s2
        { t with
            avail := availFrames e.start now dev.Frequency
            done := if availFrames e.start now dev.Frequency < t.done then
                sub64 (availFrames e.start now dev.Frequency) dev.UpdateSize
              else t.done
            pc := PC.paceTest } hp
        (by
          unfold clampDone
          simp only [a3]
          split
          · exact ⟨a1, a2, rfl, a4, a5, a6, by simp [a7, lockCalls], by simp [a8, unlockCalls],
              by simp [a9, mixCalls]⟩
          · exact ⟨a1, a2, rfl, a4, a5, a6, by simp [a7, lockCalls], by simp [a8, unlockCalls],
              by simp [a9, mixCalls]⟩)
        rfl
      exact ⟨t', Relation.ReflTransGen.trans hfirst k1, Or.inl ⟨s2, h.symm, k2, k3⟩⟩

/-- The loop and the `return` after it, statement by statement. -/
theorem mixerLoop_steps (FrameSizeFromDevFmt : Nat → Nat → Nat) (abits : Nat)
    (dev : ALCdevice) (env : Env) (e : LoopEntry) (fuel : Nat) (s s' : MixState)
    (status : Nat) (t : Task) (h : mixerLoop abits env dev e fuel s = some (status, s'))
    (ha : t.agrees e s) (hpc : t.pc = PC.loopTest) :
    ∃ t', StepStar FrameSizeFromDevFmt abits dev t t' ∧ t'.pc = PC.exited status := by
  induction fuel generalizing s t with
  | zero => simp [mixerLoop] at h
  | succ n ih =>
    rw [mixerLoop] at h
    by_cases hgo : env.killNow s.tests = 0 ∧ env.Connected s.tests = true
    · rw [if_pos hgo] at h
      have hfirst : StepStar FrameSizeFromDevFmt abits dev t { t with pc := PC.readClock } :=
        stepStar_of_runTask FrameSizeFromDevFmt abits dev 1
          (fun _ => env.answer s.clocks s.locks s.reads s.tests) t _
          (by simp [runTask, step, hpc, Env.answer, hgo.1, hgo.2])
      cases hb : loopBody abits env dev e n { s with tests := s.tests + 1 } with
      | none => simp [hb] at h
      | some p =>
        rw [hb] at h
        obtain ⟨t1, k1, k2⟩ := loopBody_steps FrameSizeFromDevFmt abits dev env e n
          { s with tests := s.tests + 1 } p { t with pc := PC.readClock } hb
          (agrees_of_trace _ e s _ ha rfl rfl rfl rfl rfl) rfl
        rcases k2 with ⟨s1, hp, m1, m2⟩ | ⟨st, s1, hp, m1⟩
        · subst hp
          simp only [] at h
          obtain ⟨t', n1, n2⟩ := ih s1 t1 h m2 m1
          exact ⟨t', Relation.ReflTransGen.trans hfirst (Relation.ReflTransGen.trans k1 n1), n2⟩
        · subst hp
          simp only [Option.some.injEq, Prod.mk.injEq] at h
          exact ⟨t1, Relation.ReflTransGen.trans hfirst k1, h.1 ▸ m1⟩
    · rw [if_neg hgo] at h
      simp only [Option.some.injEq, Prod.mk.injEq] at h
      refine ⟨{ t with pc := PC.exited 0 },
        stepStar_of_runTask FrameSizeFromDevFmt abits dev 1
          (fun _ => env.answer s.clocks s.locks s.reads s.tests) t _ ?_, h.1 ▸ rfl⟩
      simp only [runTask, step, hpc, Env.answer]
      rw [if_neg hgo]

/-- Start-up, statement by statement. -/
theorem mixerStartup_steps (FrameSizeFromDevFmt : Nat → Nat → Nat) (abits : Nat)
    (dev : ALCdevice) (env : Env) (t : Task) (hi : t.initial) :
    ∃ t', StepStar FrameSizeFromDevFmt abits dev t t' ∧
      (mixerStartup FrameSizeFromDevFmt env dev = Startup.fault → t'.pc = PC.faulted) ∧
      (∀ status, mixerStartup FrameSizeFromDevFmt env dev = Startup.exited status →
        t'.pc = PC.exited status) ∧
      (∀ e, mixerStartup FrameSizeFromDevFmt env dev = Startup.looping e →
        t'.pc = PC.loopTest ∧ t'.agrees e e.state) := by
  obtain ⟨i1, i2, i3, i4, i5⟩ := hi
  unfold mixerStartup
  by_cases hF : dev.Frequency = 0
  · rw [if_pos hF]
    exact ⟨{ t with pc := PC.faulted },
      stepStar_of_runTask FrameSizeFromDevFmt abits dev 1 (fun _ => env.answer 0 0 0 0) t _
        (by simp [runTask, step, i1, hF]),
      fun _ => rfl, fun _ h => (by cases h), fun _ h => (by cases h)⟩
  · rw [if_neg hF]
    cases hp : env.primary with
    | none =>
      exact ⟨_, stepStar_of_runTask FrameSizeFromDevFmt abits dev 2
          (fun _ => env.answer 0 0 0 0) t
          { t with
            restTime := mul64 dev.UpdateSize 1000000000 / dev.Frequency / 2
            pc := PC.exited 1 }
          (by simp [runTask, step, i1, hF, Env.answer, hp]),
        fun h => (by cases h), fun _ h => (by cases h; rfl), fun _ h => (by cases h)⟩
    | some acon =>
      cases hc : env.clock 0 with
      | none =>
        exact ⟨_, stepStar_of_runTask FrameSizeFromDevFmt abits dev 3
            (fun _ => env.answer 0 0 0 0) t
            { t with
              restTime := mul64 dev.UpdateSize 1000000000 / dev.Frequency / 2
              acon := acon, done := 0
              pc := PC.exited 1 }
            (by simp [runTask, step, i1, hF, Env.answer, hp, hc]),
          fun h => (by cases h), fun _ h => (by cases h; rfl), fun _ h => (by cases h)⟩
      | some start =>
        cases hl : env.lock 0 with
        | false =>
          exact ⟨_, stepStar_of_runTask FrameSizeFromDevFmt abits dev 4
              (fun _ => env.answer 0 0 0 0) t
              { t with
                restTime := mul64 dev.UpdateSize 1000000000 / dev.Frequency / 2
                acon := acon, done := 0, start := start
                pc := PC.exited 1 }
              (by simp [runTask, step, i1, hF, Env.answer, hp, hc, hl]),
            fun h => (by cases h), fun _ h => (by cases h; rfl), fun _ h => (by cases h)⟩
        | true =>
          simp only [Bool.true_eq_false, if_false]
          obtain ⟨acon1, hacon1⟩ : ∃ a : ShmifCont, a =
              if mul64 (FrameSizeFromDevFmt dev.FmtChans dev.FmtType) dev.UpdateSize
                  ≠ acon.abufsize then
                env.resize_ext acon
                  (mul64 (FrameSizeFromDevFmt dev.FmtChans dev.FmtType) dev.UpdateSize) 4
              else acon := ⟨_, rfl⟩
          rw [← hacon1]
          have h6 : StepStar FrameSizeFromDevFmt abits dev t
              { t with
                restTime := mul64 dev.UpdateSize 1000000000 / dev.Frequency / 2
                acon := acon1, done := 0, start := start
                frame_sz := FrameSizeFromDevFmt dev.FmtChans dev.FmtType
                held := false, lockOks := t.lockOks + 1, unlocks := t.unlocks + 1
                pc := PC.checkSize } :=
            stepStar_of_runTask FrameSizeFromDevFmt abits dev 6
              (fun _ => env.answer 0 0 0 0) t _
              (by rw [hacon1]; simp [runTask, step, i1, hF, Env.answer, hp, hc, hl])
          by_cases hgt : mul64 (FrameSizeFromDevFmt dev.FmtChans dev.FmtType) dev.UpdateSize
              > acon1.abufsize
          · rw [if_pos hgt]
            refine ⟨_, Relation.ReflTransGen.trans h6
              (stepStar_of_runTask FrameSizeFromDevFmt abits dev 1
                (fun _ => env.answer 0 0 0 0) _
                { t with
                  restTime := mul64 dev.UpdateSize 1000000000 / dev.Frequency / 2
                  acon := acon1, done := 0, start := start
                  frame_sz := FrameSizeFromDevFmt dev.FmtChans dev.FmtType
                  held := false, lockOks := t.lockOks + 1, unlocks := t.unlocks + 1
                  pc := PC.exited 1 }
                (by simp [runTask, step, hgt])),
              fun h => (by cases h), fun _ h => (by cases h; rfl), fun _ h => (by cases h)⟩
          · rw [if_neg hgt]
            refine ⟨_, Relation.ReflTransGen.trans h6
              (stepStar_of_runTask FrameSizeFromDevFmt abits dev 1
                (fun _ => env.answer 0 0 0 0) _
                { t with
                  restTime := mul64 dev.UpdateSize 1000000000 / dev.Frequency / 2
                  acon := acon1, done := 0, start := start
                  frame_sz := FrameSizeFromDevFmt dev.FmtChans dev.FmtType
                  held := false, lockOks := t.lockOks + 1, unlocks := t.unlocks + 1
                  pc := PC.loopTest }
                (by simp [runTask, step, hgt])),
              fun h => (by cases h), fun _ h => (by cases h), fun e h => ?_⟩
            cases h
            refine ⟨rfl, rfl, rfl, rfl, rfl, rfl, rfl, ?_, ?_, ?_⟩
            · simp only [i3, lockCalls]
              split <;> simp
            · simp only [i4, unlockCalls]
              split <;> simp
            · simp only [i5, mixCalls]
              split <;> simp

theorem reachable_of_stepStar (FrameSizeFromDevFmt : Nat → Nat → Nat) (abits : Nat)
    (dev : ALCdevice) (s t : Task) (hs : Reachable FrameSizeFromDevFmt abits dev s)
    (h : StepStar FrameSizeFromDevFmt abits dev s t) :
    Reachable FrameSizeFromDevFmt abits dev t := by
  induction h with
  | refl => exact hs
  | tail _ hst ih => exact Reachable.next _ _ ih hst

/-- Every run of the task as a function is a run of its step relation: when
`ALCarcanBackend_mixerProc` returns an exit status, the statements of the
task lead from its start to the exit with that status. -/
theorem mixerProc_steps (FrameSizeFromDevFmt : Nat → Nat → Nat) (abits : Nat)
    (env : Env) (dev : ALCdevice) (fuel status : Nat) (tr : List Event)
    (h : ALCarcanBackend_mixerProc FrameSizeFromDevFmt abits env dev fuel = some (status, tr))
    (t : Task) (hi : t.initial) :
    ∃ t', StepStar FrameSizeFromDevFmt abits dev t t' ∧ t'.pc = PC.exited status ∧
      Reachable FrameSizeFromDevFmt abits dev t' := by
  obtain ⟨t1, k1, -, k3, k4⟩ := mixerStartup_steps FrameSizeFromDevFmt abits dev env t hi
  have hr1 := reachable_of_stepStar FrameSizeFromDevFmt abits dev t t1
    (Reachable.start t hi) k1
  unfold ALCarcanBackend_mixerProc at h
  cases hst : mixerStartup FrameSizeFromDevFmt env dev with
  | fault => simp [hst] at h
  | exited st =>
    rw [hst] at h
    simp only [Option.some.injEq, Prod.mk.injEq] at h
    exact ⟨t1, k1, h.1 ▸ k3 st hst, hr1⟩
  | looping e =>
    rw [hst] at h
    simp only [] at h
    obtain ⟨m1, m2⟩ := k4 e hst
    cases hl : mixerLoop abits env dev e fuel e.state with
    | none => simp [hl] at h
    | some r =>
      obtain ⟨st, s'⟩ := r
      rw [hl] at h
      simp only [Option.some.injEq, Prod.mk.injEq] at h
      obtain ⟨t', n1, n2⟩ := mixerLoop_steps FrameSizeFromDevFmt abits dev env e fuel
        e.state s' st t1 hl m2 m1
      exact ⟨t', Relation.ReflTransGen.trans k1 n1, h.1 ▸ n2,
        reachable_of_stepStar FrameSizeFromDevFmt abits dev t1 t' hr1 n1⟩

end Arcan
